import Mathlib

/-!
# Solar-System-SFML-Box2D: orbital dynamics and lifecycle engine

A shallow embedding of `src/main.cpp` (classes `Sun`, `Planet`, `SolarSystem`).

Conventions of the embedding.

* `float` is idealised as a linearly ordered field `α`; the C library `sqrt` is an explicit
  argument `sqrt : α → α`, characterised where needed by `IsSqrt`.  Every definition is
  computable for a computable field and a computable `sqrt`; closed instances are stated
  over `ℝ` with `Real.sqrt`.
* A `b2Body*` is a natural number, `0` being `nullptr`.  The Box2D world is the finite map
  from handles to body states plus the next fresh handle.  Reading through a handle that is
  not live is undefined behaviour in C++ and makes the embedded operation return `none`.
* Box2D and SFML are libraries the repository links against; their sources are not part of
  it.  What the program uses of them is modelled from section 6 of the specification and
  the documented behaviour of Box2D, each such definition saying so.
* Random draws (`randRadius(rng)`, `randSign(rng)`) are explicit arguments.
* Presentation state (textures, the scale of sprites, the orbit ring shape) is left out;
  the sprite position, which the pruning pass reads, is kept.
-/

set_option autoImplicit false
set_option linter.unusedSectionVars false

/-! ## Vectors and constants -/

/-- Modelled from the spec: the SFML type `sf::Vector2f` (a point in display
coordinates), not under src/. -/
structure Vector2f (α : Type) where
  x : α
  y : α

/-- Modelled from the spec: the Box2D type `b2Vec2` (a vector in simulation units), not
under src/. -/
structure b2Vec2 (α : Type) where
  x : α
  y : α

section Model

variable {α : Type} [LinearOrderedField α]

/-- Source line 13: `constexpr float PIXELS_PER_METER = 30.f;`. -/
def PIXELS_PER_METER : α := 30

/-- Source line 14: `constexpr float INV_PPM = 1.0f / PIXELS_PER_METER;`. -/
def INV_PPM : α := 1 / PIXELS_PER_METER

/-- Modelled from the spec: the Box2D constant `b2_epsilon`, not under src/; it is
`FLT_EPSILON`, that is `2^-23`. -/
def b2_epsilon : α := 1 / 8388608

/-- Modelled from the spec: Box2D `operator-(b2Vec2, b2Vec2)`, not under src/. -/
def b2Vec2.sub (a b : b2Vec2 α) : b2Vec2 α := ⟨a.x - b.x, a.y - b.y⟩

/-- Modelled from the spec: Box2D `operator*(float, b2Vec2)`, not under src/. -/
def b2Vec2.smul (s : α) (v : b2Vec2 α) : b2Vec2 α := ⟨s * v.x, s * v.y⟩

/-- Modelled from the spec: Box2D `b2Vec2::operator+=`, not under src/, as a pure sum. -/
def b2Vec2.add (a b : b2Vec2 α) : b2Vec2 α := ⟨a.x + b.x, a.y + b.y⟩

/-- Modelled from the spec: Box2D `b2Vec2::LengthSquared`, not under src/. -/
def b2Vec2.LengthSquared (v : b2Vec2 α) : α := v.x * v.x + v.y * v.y

/-- Modelled from the spec: Box2D `b2Vec2::Length`, not under src/:
`b2Sqrt(x * x + y * y)`. -/
def b2Vec2.Length (sqrt : α → α) (v : b2Vec2 α) : α := sqrt (v.x * v.x + v.y * v.y)

/-- Modelled from the spec: Box2D `b2Vec2::Normalize`, not under src/ (the `normalize` of
section 4.2): a vector shorter than `b2_epsilon` is left as it is, any other is scaled by
the inverse of its length. -/
def b2Vec2.Normalize (sqrt : α → α) (v : b2Vec2 α) : b2Vec2 α :=
  let length := v.Length sqrt
  if length < b2_epsilon then v
  else
    let invLength := 1 / length
    ⟨v.x * invLength, v.y * invLength⟩

/-- What the development assumes of the C library `sqrt` on non-negative arguments:
the result is non-negative and squares back to the argument. -/
def IsSqrt (sqrt : α → α) : Prop :=
  ∀ x : α, 0 ≤ x → 0 ≤ sqrt x ∧ sqrt x * sqrt x = x

/-! ## The physics backend (Box2D), as far as the program uses it -/

/-- Modelled from the spec: Box2D `b2BodyType`, not under src/; the two values the program
uses (the static sun, the dynamic planets). -/
inductive b2BodyType where
  | b2_staticBody
  | b2_dynamicBody
  deriving DecidableEq, Repr

/-- Modelled from the spec: the state of a Box2D `b2Body`, not under src/, that the program
reads or writes (section 6: position, linear velocity, current mass, applied force). -/
structure b2Body (α : Type) where
  type : b2BodyType
  position : b2Vec2 α
  linearVelocity : b2Vec2 α
  mass : α
  gravityScale : α
  force : b2Vec2 α

/-- Modelled from the spec: the Box2D `b2World`, not under src/: the live bodies by handle,
and the next handle `CreateBody` hands out. -/
structure b2World (α : Type) where
  bodies : Nat → Option (b2Body α)
  nextHandle : Nat

/-- Modelled from the spec: the world built by `b2World(b2Vec2(0, 0))`: no body; handle
`0` is `nullptr`. -/
def b2World.empty : b2World α := ⟨fun _ => none, 1⟩

/-- Every handle from `nextHandle` on is still unused, and `nullptr` is no body. -/
def b2World.Fresh (w : b2World α) : Prop :=
  w.bodies 0 = none ∧ ∀ h : Nat, w.nextHandle ≤ h → w.bodies h = none

/-- Modelled from the spec: Box2D `b2World::CreateBody`, not under src/, for a body
definition giving type and position (section 6: create a body at a position): the new body
is at rest there, with gravity scale 1 and, until a fixture is attached, mass 1 when
dynamic and 0 when static. -/
def b2World.CreateBody (w : b2World α) (type : b2BodyType) (position : b2Vec2 α) :
    b2World α × Nat :=
  (⟨Function.update w.bodies w.nextHandle
      (some ⟨type, position, ⟨0, 0⟩,
        (match type with
          | .b2_dynamicBody => 1
          | .b2_staticBody => 0), 1, ⟨0, 0⟩⟩), w.nextHandle + 1⟩, w.nextHandle)

/-- Apply a change to the body behind a handle (nothing happens to the other bodies). -/
def b2World.modify (w : b2World α) (h : Nat) (f : b2Body α → b2Body α) : b2World α :=
  ⟨Function.update w.bodies h ((w.bodies h).map f), w.nextHandle⟩

/-- Modelled from the spec: Box2D `b2Body::CreateFixture`, not under src/, for the one
circle of radius `m_radius` and density `density` the program attaches to a body
(section 3: mass is density times area): with a positive density the mass of a dynamic body
becomes `density * pi * m_radius^2` (1 when that is not positive), a static body stays
massless. -/
def b2World.CreateFixture (b2_pi : α) (w : b2World α) (h : Nat) (m_radius density : α) :
    b2World α :=
  w.modify h fun b =>
    if 0 < density then
      match b.type with
      | .b2_dynamicBody =>
        let m := density * (b2_pi * m_radius * m_radius)
        { b with mass := if 0 < m then m else 1 }
      | .b2_staticBody => b
    else b

/-- Modelled from the spec: Box2D `b2Body::SetGravityScale`, not under src/. -/
def b2World.SetGravityScale (w : b2World α) (h : Nat) (scale : α) : b2World α :=
  w.modify h fun b => { b with gravityScale := scale }

/-- Modelled from the spec: Box2D `b2Body::SetLinearVelocity`, not under src/: ignored by
a static body. -/
def b2World.SetLinearVelocity (w : b2World α) (h : Nat) (v : b2Vec2 α) : b2World α :=
  w.modify h fun b =>
    match b.type with
    | .b2_staticBody => b
    | .b2_dynamicBody => { b with linearVelocity := v }

/-- Modelled from the spec: Box2D `b2Body::ApplyForceToCenter(force, true)`, not under
src/ (section 6: apply a force at the centre of mass, to be integrated by the next step):
a dynamic body is woken and the force is added to its force accumulator; any other body
ignores the call. -/
def b2World.ApplyForceToCenter (w : b2World α) (h : Nat) (force : b2Vec2 α) : b2World α :=
  w.modify h fun b =>
    match b.type with
    | .b2_dynamicBody => { b with force := b.force.add force }
    | .b2_staticBody => b

/-- Modelled from the spec: Box2D `b2Body::GetPosition`, not under src/. -/
def b2World.GetPosition (w : b2World α) (h : Nat) : Option (b2Vec2 α) :=
  (w.bodies h).map fun b => b.position

/-- Modelled from the spec: Box2D `b2Body::GetMass`, not under src/. -/
def b2World.GetMass (w : b2World α) (h : Nat) : Option α :=
  (w.bodies h).map fun b => b.mass

/-! ## `Sun`, `Planet`, `SolarSystem` -/

/-- Class `Sun` (source lines 23-61): its body, `radius_px`, and `shape.getPosition()`. -/
structure Sun (α : Type) where
  body : Nat
  radius_px : α
  shapePos : Vector2f α

/-- Class `Planet` (source lines 63-170): its body, `radius_px`, `sprite.getPosition()`,
and the cached orbit ring data. -/
structure Planet (α : Type) where
  body : Nat
  radius_px : α
  spritePos : Vector2f α
  orbitRadius_px : α
  orbitCenter_px : Vector2f α

/-- Class `SolarSystem` (source lines 172-325), with the member initialisers of
lines 181-182. -/
structure SolarSystem (α : Type) [LinearOrderedField α] where
  world : b2World α
  sun : Option (Sun α)
  planets : List (Planet α)
  GRAVITATIONAL_CONSTANT : α := 3
  SUN_MASS : α := 10000

/-- The constructor `SolarSystem()` (source line 184), textures apart. -/
def SolarSystem.new : SolarSystem α :=
  { world := b2World.empty, sun := none, planets := [] }

/-- The constructor `Sun::Sun` (source lines 30-50). -/
def Sun.new (b2_pi : α) (world : b2World α) (pos_px : Vector2f α) (r_px : α) :
    b2World α × Sun α :=
  let created := world.CreateBody .b2_staticBody ⟨pos_px.x * INV_PPM, pos_px.y * INV_PPM⟩
  let world2 := created.1.CreateFixture b2_pi created.2 (r_px * INV_PPM) 1
  (world2, ⟨created.2, r_px, pos_px⟩)

/-- `SolarSystem::createSun` (source lines 203-207). -/
def SolarSystem.createSun (b2_pi : α) (s : SolarSystem α) (pos_px : Vector2f α)
    (radius_px : α) : SolarSystem α :=
  let made := Sun.new b2_pi s.world pos_px radius_px
  { s with world := made.1, sun := some made.2 }

/-- The orbital-velocity block that occurs twice in the source, at lines 110-128 with
`INITIAL_GUESS_G`, `INITIAL_SUN_MASS` and at lines 222-235 with the members of the system:
the velocity handed to `SetLinearVelocity`, or `none` when the tangent has square length
zero and no velocity is set. -/
def orbitalVelocity (sqrt : α → α) (G M : α) (sunPos planetPos : b2Vec2 α) (signDraw : α) :
    Option (b2Vec2 α) :=
  let r := planetPos.sub sunPos
  let distance := r.Length sqrt
  let distance := if distance < 1 / 100 then 1 / 100 else distance
  let tang : b2Vec2 α := ⟨-r.y, r.x⟩
  if 0 < tang.LengthSquared then
    let tang := tang.Normalize sqrt
    let orbitalSpeed := sqrt (G * M / distance)
    let orbitalSpeed := if signDraw < 1 / 2 then -orbitalSpeed else orbitalSpeed
    some ⟨orbitalSpeed * tang.x, orbitalSpeed * tang.y⟩
  else none

/-- Set the velocity computed by `orbitalVelocity` on a body, when there is one. -/
def setOrbitalVelocity (w : b2World α) (h : Nat) (v : Option (b2Vec2 α)) : b2World α :=
  match v with
  | some vel => w.SetLinearVelocity h vel
  | none => w

/-- The constructor `Planet::Planet` (source lines 75-142); `radiusDraw` is
`randRadius(rng)` and `signDraw` is `randSign(rng)`. -/
def Planet.new (sqrt : α → α) (b2_pi : α) (world : b2World α) (sun : Sun α)
    (spawn_px : Vector2f α) (radiusDraw signDraw : α) : Option (b2World α × Planet α) :=
  let radius_px := radiusDraw
  let created := world.CreateBody .b2_dynamicBody ⟨spawn_px.x * INV_PPM, spawn_px.y * INV_PPM⟩
  let body := created.2
  let w := created.1.CreateFixture b2_pi body (radius_px * INV_PPM) (1 / 2)
  let w := w.SetGravityScale body 0
  match w.GetPosition sun.body, w.GetPosition body with
  | some sunPos, some planetPos =>
    let w := setOrbitalVelocity w body (orbitalVelocity sqrt 3 10000 sunPos planetPos signDraw)
    let orbitCenter_px := sun.shapePos
    let dx := spawn_px.x - orbitCenter_px.x
    let dy := spawn_px.y - orbitCenter_px.y
    let orbitRadius_px := sqrt (dx * dx + dy * dy)
    some (w, ⟨body, radius_px, spawn_px, orbitRadius_px, orbitCenter_px⟩)
  | _, _ => none

/-- `SolarSystem::spawnPlanetAt` (source lines 209-236).  The three draws are, in the
order the source makes them after the texture index: the radius and the sign drawn by the
constructor, and the sign drawn by `spawnPlanetAt` itself. -/
def SolarSystem.spawnPlanetAt (sqrt : α → α) (b2_pi : α) (s : SolarSystem α)
    (pos_px : Vector2f α) (radiusDraw signDraw1 signDraw2 : α) : Option (SolarSystem α) :=
  match s.sun with
  | none => some s
  | some sun =>
    let dx := pos_px.x - sun.shapePos.x
    let dy := pos_px.y - sun.shapePos.y
    let d := sqrt (dx * dx + dy * dy)
    if d < sun.radius_px + 5 then some s
    else
      match Planet.new sqrt b2_pi s.world sun pos_px radiusDraw signDraw1 with
      | none => none
      | some (w, p) =>
        match w.GetPosition sun.body, w.GetPosition p.body with
        | some sunPos, some planetPos =>
          let w := setOrbitalVelocity w p.body
            (orbitalVelocity sqrt s.GRAVITATIONAL_CONSTANT s.SUN_MASS sunPos planetPos signDraw2)
          some { s with world := w, planets := s.planets ++ [p] }
        | _, _ => none

/-! ## Gravity -/

/-- The force computed by one round of the loop of `SolarSystem::applyGravity`
(source lines 252-262) from the two positions and the mass read from the backend. -/
def gravityForce (sqrt : α → α) (G m1 sunRadius_px : α) (sunPos planetPos : b2Vec2 α)
    (m2 : α) : b2Vec2 α :=
  let dir := sunPos.sub planetPos
  let distance := dir.Length sqrt
  let minDist := (sunRadius_px * INV_PPM) * (1 / 2)
  let distance := if distance < minDist then minDist else distance
  let dir := dir.Normalize sqrt
  let forceMag := G * (m1 * m2) / (distance * distance)
  b2Vec2.smul forceMag dir

/-- One round of the loop of `applyGravity` (source lines 248-263) for planet `p`. -/
def gravityStep (sqrt : α → α) (G m1 : α) (sun : Sun α) (w : b2World α) (p : Planet α) :
    Option (b2World α) :=
  if p.body = 0 then some w
  else
    match w.GetPosition sun.body, w.GetPosition p.body, w.GetMass p.body with
    | some sunPos, some planetPos, some m2 =>
      some (w.ApplyForceToCenter p.body
        (gravityForce sqrt G m1 sun.radius_px sunPos planetPos m2))
    | _, _, _ => none

/-- The loop of `applyGravity` over the planets, from a given world. -/
def gravityLoop (sqrt : α → α) (G m1 : α) (sun : Sun α) :
    List (Planet α) → b2World α → Option (b2World α)
  | [], w => some w
  | p :: rest, w =>
    match gravityStep sqrt G m1 sun w p with
    | some w2 => gravityLoop sqrt G m1 sun rest w2
    | none => none

/-- `SolarSystem::applyGravity` (source lines 238-265); `dt` is not used by the source. -/
def SolarSystem.applyGravity (sqrt : α → α) (s : SolarSystem α) (_dt : α) :
    Option (SolarSystem α) :=
  match s.sun with
  | none => some s
  | some sun =>
    match gravityLoop sqrt s.GRAVITATIONAL_CONSTANT s.SUN_MASS sun s.planets s.world with
    | some w => some { s with world := w }
    | none => none

/-! ## Pruning -/

/-- The sun test of `cleanupDead` (source lines 286-292):
`dist < sun->radius_px + p->radius_px`. -/
def hitsSun (sqrt : α → α) (sun : Sun α) (p : Planet α) : Prop :=
  sqrt ((p.spritePos.x - sun.shapePos.x) * (p.spritePos.x - sun.shapePos.x)
      + (p.spritePos.y - sun.shapePos.y) * (p.spritePos.y - sun.shapePos.y))
    < sun.radius_px + p.radius_px

instance (sqrt : α → α) (sun : Sun α) (p : Planet α) : Decidable (hitsSun sqrt sun p) :=
  inferInstanceAs (Decidable (_ < _))

/-- The pair test of `cleanupDead` (source lines 302-306):
`d2 < p->radius_px + o->radius_px`. -/
def overlaps (sqrt : α → α) (p o : Planet α) : Prop :=
  sqrt ((p.spritePos.x - o.spritePos.x) * (p.spritePos.x - o.spritePos.x)
      + (p.spritePos.y - o.spritePos.y) * (p.spritePos.y - o.spritePos.y))
    < p.radius_px + o.radius_px

instance (sqrt : α → α) (p o : Planet α) : Decidable (overlaps sqrt p o) :=
  inferInstanceAs (Decidable (_ < _))

/-- Source line 310: `o->radius_px = -1.0f;`. -/
def Planet.markDead (o : Planet α) : Planet α := { o with radius_px := -1 }

/-- The test of source line 322, `u->radius_px >= 0` (`u` itself is never null there). -/
def radiusOk (u : Planet α) : Bool := decide (0 ≤ u.radius_px)

/-- The inner loop of `cleanupDead` (source lines 299-314) for planet `p` over the planets
after it: `none` when the loop ends without a hit; at the first `o` that passes the pair
test, the planets after `p` with that `o` marked, and the body of `o`. -/
def pairScan (sqrt : α → α) (p : Planet α) : List (Planet α) → Option (List (Planet α) × Nat)
  | [] => none
  | o :: rest =>
    if overlaps sqrt p o then some (o.markDead :: rest, o.body)
    else
      match pairScan sqrt p rest with
      | some (rest2, ob) => some (o :: rest2, ob)
      | none => none

/-- The outer loop of `cleanupDead` (source lines 282-318) from index `i` on: the first
argument is the number `planets.size() - i` of rounds left and the list holds
`planets[i], planets[i+1], ...` in their current state.  The result is what the rounds
push to `alive` and the arguments of their `DestroyBody` calls, both in order. -/
def cleanupLoop (sqrt : α → α) (sun : Sun α) :
    Nat → List (Planet α) → List (Planet α) × List Nat
  | 0, _ => ([], [])
  | _ + 1, [] => ([], [])
  | n + 1, p :: rest =>
    if hitsSun sqrt sun p then
      let r := cleanupLoop sqrt sun n rest
      (r.1, p.body :: r.2)
    else
      match pairScan sqrt p rest with
      | some (rest2, ob) =>
        let r := cleanupLoop sqrt sun n rest2
        (r.1, p.body :: ob :: r.2)
      | none =>
        let r := cleanupLoop sqrt sun n rest
        (p :: r.1, r.2)

/-- `SolarSystem::cleanupDead` (source lines 278-324) for a system whose sun is `sun` and
whose live planets are `planets`: the new `planets` vector, and the arguments of the
`world.DestroyBody` calls of the pass in call order. -/
def cleanupDead (sqrt : α → α) (sun : Sun α) (planets : List (Planet α)) :
    List (Planet α) × List Nat :=
  let r := cleanupLoop sqrt sun planets.length planets
  (r.1.filter radiusOk, r.2)

/-- Planet `o` passes the pair test against `p` neither as it is nor once marked dead. -/
def Apart (sqrt : α → α) (p o : Planet α) : Prop :=
  ¬ overlaps sqrt o p ∧ ¬ overlaps sqrt o.markDead p

end Model

/-! ## Properties of the pruning pass -/

section Pruning

variable {α : Type} [LinearOrderedField α]

theorem overlaps_comm (sqrt : α → α) (p o : Planet α) :
    overlaps sqrt p o ↔ overlaps sqrt o p := by
  unfold overlaps
  have h : (p.spritePos.x - o.spritePos.x) * (p.spritePos.x - o.spritePos.x)
      + (p.spritePos.y - o.spritePos.y) * (p.spritePos.y - o.spritePos.y)
      = (o.spritePos.x - p.spritePos.x) * (o.spritePos.x - p.spritePos.x)
      + (o.spritePos.y - p.spritePos.y) * (o.spritePos.y - p.spritePos.y) := by ring
  rw [h, add_comm p.radius_px o.radius_px]

theorem pairScan_eq_none (sqrt : α → α) (p : Planet α) (l : List (Planet α)) :
    pairScan sqrt p l = none ↔ ∀ o ∈ l, ¬ overlaps sqrt p o := by
  induction l with
  | nil => simp [pairScan]
  | cons o rest ih =>
    by_cases h : overlaps sqrt p o
    · simp [pairScan, h]
    · cases hr : pairScan sqrt p rest with
      | none =>
        simp [pairScan, h, hr]
        exact ih.mp hr
      | some v =>
        have : ¬ ∀ o ∈ rest, ¬ overlaps sqrt p o := fun hc => by
          rw [ih.mpr hc] at hr; cases hr
        simp [pairScan, h, hr]
        simpa using this


theorem pairScan_some (sqrt : α → α) (p : Planet α) (l l2 : List (Planet α)) (ob : Nat)
    (h : pairScan sqrt p l = some (l2, ob)) :
    ∃ l1 o l3, l = l1 ++ o :: l3 ∧ l2 = l1 ++ o.markDead :: l3 ∧ ob = o.body
      ∧ overlaps sqrt p o ∧ ∀ x ∈ l1, ¬ overlaps sqrt p x := by
  induction l generalizing l2 with
  | nil => simp [pairScan] at h
  | cons o rest ih =>
    by_cases ho : overlaps sqrt p o
    · simp [pairScan, ho] at h
      exact ⟨[], o, rest, by simp, by simp [h.1], h.2.symm, ho, by simp⟩
    · cases hr : pairScan sqrt p rest with
      | none => simp [pairScan, ho, hr] at h
      | some v =>
        obtain ⟨r2, b⟩ := v
        simp [pairScan, ho, hr] at h
        obtain ⟨l1, o2, l3, e1, e2, e3, e4, e5⟩ := ih r2 (by rw [hr, h.2])
        refine ⟨o :: l1, o2, l3, by simp [e1], by simp [← h.1, e2], e3, e4, ?_⟩
        intro x hx
        rcases List.mem_cons.mp hx with rfl | hx
        · exact ho
        · exact e5 x hx

theorem radiusOk_markDead (o : Planet α) : radiusOk o.markDead = false := by
  simp [radiusOk, Planet.markDead]

theorem pairScan_length (sqrt : α → α) (p : Planet α) (l l2 : List (Planet α)) (ob : Nat)
    (h : pairScan sqrt p l = some (l2, ob)) : l2.length = l.length := by
  obtain ⟨l1, o, l3, e1, e2, -⟩ := pairScan_some sqrt p l l2 ob h
  simp [e1, e2]

theorem pairScan_forall (sqrt : α → α) (p : Planet α) (l l2 : List (Planet α)) (ob : Nat)
    (h : pairScan sqrt p l = some (l2, ob)) (Q : Planet α → Prop)
    (hQ : ∀ x, Q x → Q x.markDead) (hl : ∀ x ∈ l, Q x) : ∀ x ∈ l2, Q x := by
  obtain ⟨l1, o, l3, e1, e2, -⟩ := pairScan_some sqrt p l l2 ob h
  subst e1 e2
  intro x hx
  simp only [List.mem_append, List.mem_cons] at hx hl
  rcases hx with hx | rfl | hx
  · exact hl x (Or.inl hx)
  · exact hQ o (hl o (Or.inr (Or.inl rfl)))
  · exact hl x (Or.inr (Or.inr hx))

theorem pairScan_filter_sublist (sqrt : α → α) (p : Planet α) (l l2 : List (Planet α))
    (ob : Nat) (h : pairScan sqrt p l = some (l2, ob)) :
    (l2.filter radiusOk).Sublist (l.filter radiusOk) := by
  obtain ⟨l1, o, l3, e1, e2, -⟩ := pairScan_some sqrt p l l2 ob h
  subst e1 e2
  simp only [List.filter_append]
  apply List.Sublist.append (List.Sublist.refl _)
  rw [List.filter_cons_of_neg (by simp [radiusOk_markDead])]
  exact (List.sublist_cons_self o l3).filter radiusOk

theorem pairScan_append (sqrt : α → α) (p : Planet α) (a b : List (Planet α)) :
    pairScan sqrt p (a ++ b) =
      match pairScan sqrt p a with
      | some (a2, ob) => some (a2 ++ b, ob)
      | none =>
        match pairScan sqrt p b with
        | some (b2, ob) => some (a ++ b2, ob)
        | none => none := by
  induction a with
  | nil =>
    cases h : pairScan sqrt p b with
    | none => simp [pairScan, h]
    | some v => simp [pairScan, h]
  | cons o rest ih =>
    by_cases ho : overlaps sqrt p o
    · simp [pairScan, ho]
    · rw [List.cons_append]
      simp only [pairScan, ho, if_false]
      rw [ih]
      cases h1 : pairScan sqrt p rest with
      | some v => simp
      | none =>
        cases h2 : pairScan sqrt p b with
        | none => simp
        | some v => simp

theorem filter_cons_sublist (q : Planet α) (A c : List (Planet α))
    (h : (A.filter radiusOk).Sublist (c.filter radiusOk)) :
    ((q :: A).filter radiusOk).Sublist ((q :: c).filter radiusOk) := by
  simp only [List.filter_cons]
  split
  · exact h.cons₂ q
  · exact h

theorem filter_sublist_cons (q : Planet α) (A c : List (Planet α))
    (h : (A.filter radiusOk).Sublist (c.filter radiusOk)) :
    (A.filter radiusOk).Sublist ((q :: c).filter radiusOk) := by
  simp only [List.filter_cons]
  split
  · exact h.cons q
  · exact h

/-- What a pass pushes with a non-negative radius is drawn, in order, from the planets it
started with that had a non-negative radius. -/
theorem cleanupLoop_filter_sublist (sqrt : α → α) (sun : Sun α) :
    ∀ (n : Nat) (l : List (Planet α)),
      ((cleanupLoop sqrt sun n l).1.filter radiusOk).Sublist (l.filter radiusOk) := by
  intro n
  induction n with
  | zero => intro l; simp [cleanupLoop]
  | succ n ih =>
    intro l
    cases l with
    | nil => simp [cleanupLoop]
    | cons p rest =>
      simp only [cleanupLoop]
      split
      · exact filter_sublist_cons p _ _ (ih rest)
      · cases h : pairScan sqrt p rest with
        | none => exact filter_cons_sublist p _ _ (ih rest)
        | some v =>
          obtain ⟨r2, ob⟩ := v
          exact filter_sublist_cons p _ _
            ((ih r2).trans (pairScan_filter_sublist sqrt p rest r2 ob h))

theorem cleanupLoop_frame (sqrt : α → α) (sun : Sun α) (QP : Planet α → Prop)
    (Inv : List (Planet α) → Prop) (hQP : ∀ q, QP q → QP q.markDead)
    (hInv : ∀ q t t2 ob, QP q → Inv t → pairScan sqrt q t = some (t2, ob) → Inv t2) :
    ∀ (k : Nat) (c1 t : List (Planet α)) (m : Nat), c1.length = k → (∀ q ∈ c1, QP q) →
      Inv t →
      ∃ A t2, Inv t2 ∧ t2.length = t.length
        ∧ (cleanupLoop sqrt sun (k + m) (c1 ++ t)).1 = A ++ (cleanupLoop sqrt sun m t2).1
        ∧ (A.filter radiusOk).Sublist (c1.filter radiusOk) := by
  intro k
  induction k with
  | zero =>
    intro c1 t m hk _ hI
    have : c1 = [] := List.length_eq_zero.mp hk
    subst this
    exact ⟨[], t, hI, rfl, by simp, by simp⟩
  | succ k ih =>
    intro c1 t m hk hq hI
    cases c1 with
    | nil => simp at hk
    | cons q c1 =>
      have hk2 : c1.length = k := by simpa using hk
      have hq2 : ∀ x ∈ c1, QP x := fun x hx => hq x (List.mem_cons_of_mem _ hx)
      have hqq : QP q := hq q (List.mem_cons_self _ _)
      have e : k + 1 + m = (k + m) + 1 := by omega
      rw [e, List.cons_append]
      simp only [cleanupLoop]
      split
      · obtain ⟨A, t2, h1, h2, h3, h4⟩ := ih c1 t m hk2 hq2 hI
        exact ⟨A, t2, h1, h2, h3, filter_sublist_cons q _ _ h4⟩
      · cases h : pairScan sqrt q (c1 ++ t) with
        | none =>
          obtain ⟨A, t2, h1, h2, h3, h4⟩ := ih c1 t m hk2 hq2 hI
          exact ⟨q :: A, t2, h1, h2, by simp [h3], filter_cons_sublist q _ _ h4⟩
        | some v =>
          obtain ⟨r2, ob⟩ := v
          rw [pairScan_append] at h
          cases h1 : pairScan sqrt q c1 with
          | some v1 =>
            obtain ⟨c2, ob1⟩ := v1
            rw [h1] at h
            simp only [Option.some.injEq, Prod.mk.injEq] at h
            obtain ⟨A, t2, g1, g2, g3, g4⟩ := ih c2 t m
              ((pairScan_length sqrt q c1 c2 ob1 h1).trans hk2)
              (pairScan_forall sqrt q c1 c2 ob1 h1 QP hQP hq2) hI
            refine ⟨A, t2, g1, g2, ?_, ?_⟩
            · simp only [← h.1]; exact g3
            · exact filter_sublist_cons q _ _
                (g4.trans (pairScan_filter_sublist sqrt q c1 c2 ob1 h1))
          | none =>
            rw [h1] at h
            cases h2 : pairScan sqrt q t with
            | none => rw [h2] at h; simp at h
            | some v2 =>
              obtain ⟨t3, ob2⟩ := v2
              rw [h2] at h
              simp only [Option.some.injEq, Prod.mk.injEq] at h
              obtain ⟨A, t2, g1, g2, g3, g4⟩ := ih c1 t3 m hk2 hq2
                (hInv q t t3 ob2 hqq hI h2)
              refine ⟨A, t2, g1, g2.trans (pairScan_length sqrt q t t3 ob2 h2), ?_, ?_⟩
              · simp only [← h.1]; exact g3
              · exact filter_sublist_cons q _ _ g4

theorem cleanupLoop_not_hitsSun (sqrt : α → α) (sun : Sun α) :
    ∀ (n : Nat) (l : List (Planet α)), ∀ x ∈ (cleanupLoop sqrt sun n l).1,
      ¬ hitsSun sqrt sun x := by
  intro n
  induction n with
  | zero => intro l; simp [cleanupLoop]
  | succ n ih =>
    intro l
    cases l with
    | nil => simp [cleanupLoop]
    | cons p rest =>
      simp only [cleanupLoop]
      split
      · exact ih rest
      · rename_i hp
        cases h : pairScan sqrt p rest with
        | none =>
          intro x hx
          rcases List.mem_cons.mp hx with rfl | hx
          · exact hp
          · exact ih rest x hx
        | some v => exact ih v.1

theorem cleanupLoop_pairwise (sqrt : α → α) (sun : Sun α) :
    ∀ (n : Nat) (l : List (Planet α)),
      ((cleanupLoop sqrt sun n l).1.filter radiusOk).Pairwise
        (fun a b => ¬ overlaps sqrt a b) := by
  intro n
  induction n with
  | zero => intro l; simp [cleanupLoop]
  | succ n ih =>
    intro l
    cases l with
    | nil => simp [cleanupLoop]
    | cons p rest =>
      simp only [cleanupLoop]
      split
      · exact ih rest
      · cases h : pairScan sqrt p rest with
        | none =>
          have hall := (pairScan_eq_none sqrt p rest).mp h
          have hsub := cleanupLoop_filter_sublist sqrt sun n rest
          simp only [List.filter_cons]
          split
          · refine List.Pairwise.cons ?_ (ih rest)
            intro y hy
            exact hall y (List.mem_of_mem_filter (hsub.subset hy))
          · exact ih rest
        | some v => exact ih v.1

theorem cleanupLoop_fixed (sqrt : α → α) (sun : Sun α) :
    ∀ l : List (Planet α), (∀ x ∈ l, ¬ hitsSun sqrt sun x) →
      l.Pairwise (fun a b => ¬ overlaps sqrt a b) →
      cleanupLoop sqrt sun l.length l = (l, []) := by
  intro l
  induction l with
  | nil => intro _ _; simp [cleanupLoop]
  | cons p rest ih =>
    intro hs hp
    have hp2 := List.pairwise_cons.mp hp
    have hnone : pairScan sqrt p rest = none := (pairScan_eq_none sqrt p rest).mpr hp2.1
    have hrest := ih (fun x hx => hs x (List.mem_cons_of_mem _ hx)) hp2.2
    simp only [List.length_cons, cleanupLoop, hs p (List.mem_cons_self _ _), if_false, hnone,
      hrest]

theorem apart_markDead (sqrt : α → α) (p o : Planet α) (h : Apart sqrt p o) :
    Apart sqrt p o.markDead := ⟨h.2, h.2⟩

theorem apart_of_not_overlaps (sqrt : α → α) (p o : Planet α) (h : ¬ overlaps sqrt p o)
    (ho : -1 ≤ o.radius_px) : Apart sqrt p o := by
  refine ⟨fun hc => h ((overlaps_comm sqrt o p).mp hc), fun hc => ?_⟩
  apply h
  rw [overlaps_comm]
  unfold overlaps at hc ⊢
  simp only [Planet.markDead] at hc
  exact lt_of_lt_of_le hc (by linarith)

theorem pairScan_none_of_apart (sqrt : α → α) (p : Planet α) (l : List (Planet α))
    (h : ∀ o ∈ l, Apart sqrt p o) : pairScan sqrt p l = none :=
  (pairScan_eq_none sqrt p l).mpr fun o ho hc => (h o ho).1 ((overlaps_comm sqrt p o).mp hc)

theorem pairScan_cons_of_not (sqrt : α → α) (q x : Planet α) (l t2 : List (Planet α))
    (ob : Nat) (hx : ¬ overlaps sqrt q x) (h : pairScan sqrt q (x :: l) = some (t2, ob)) :
    ∃ l2, t2 = x :: l2 ∧ pairScan sqrt q l = some (l2, ob) := by
  simp only [pairScan, hx, if_false] at h
  cases hl : pairScan sqrt q l with
  | none => rw [hl] at h; simp at h
  | some v =>
    rw [hl] at h
    simp only [Option.some.injEq, Prod.mk.injEq] at h
    exact ⟨v.1, h.1.symm, by rw [← h.2]⟩

/-- A planet that nothing can hit stays where it is among what the pass keeps. -/
theorem cleanupLoop_keeps (sqrt : α → α) (sun : Sun α) (p : Planet α)
    (l1 l2 : List (Planet α)) (hp : radiusOk p = true) (hsun : ¬ hitsSun sqrt sun p)
    (h1 : ∀ o ∈ l1, Apart sqrt p o) (h2 : ∀ o ∈ l2, Apart sqrt p o) :
    ∃ r1 r2, (cleanupLoop sqrt sun (l1 ++ p :: l2).length (l1 ++ p :: l2)).1.filter radiusOk
        = r1 ++ p :: r2 ∧ r1.Sublist l1 ∧ r2.Sublist l2 := by
  obtain ⟨A, t2, ⟨c2, ht2, hc2, hsub⟩, hlen, hout, hA⟩ :=
    cleanupLoop_frame sqrt sun (fun q => Apart sqrt p q)
      (fun t => ∃ c2, t = p :: c2 ∧ (∀ o ∈ c2, Apart sqrt p o)
        ∧ (c2.filter radiusOk).Sublist l2)
      (fun q hq => apart_markDead sqrt p q hq)
      (by
        rintro q t t2 ob hq ⟨c2, rfl, hc2, hsub⟩ hscan
        obtain ⟨c3, rfl, hscan2⟩ := pairScan_cons_of_not sqrt q p c2 t2 ob hq.1 hscan
        exact ⟨c3, rfl,
          pairScan_forall sqrt q c2 c3 ob hscan2 _ (fun x hx => apart_markDead sqrt p x hx) hc2,
          (pairScan_filter_sublist sqrt q c2 c3 ob hscan2).trans hsub⟩)
      l1.length l1 (p :: l2) (p :: l2).length rfl h1
      ⟨l2, rfl, h2, List.filter_sublist l2⟩
  subst ht2
  have hlen2 : c2.length = l2.length := by simpa using hlen
  rw [List.length_append, hout]
  simp only [List.length_cons, cleanupLoop, hsun, if_false,
    pairScan_none_of_apart sqrt p c2 hc2, List.filter_append, List.filter_cons, hp, if_true]
  refine ⟨A.filter radiusOk, _, rfl, hA.trans (List.filter_sublist l1), ?_⟩
  exact (cleanupLoop_filter_sublist sqrt sun _ c2).trans hsub

/-- A pair that only hits each other is dropped by the pass. -/
theorem cleanupLoop_drops_pair (sqrt : α → α) (sun : Sun α) (a b : Planet α)
    (l1 l2 l3 : List (Planet α)) (hsun : ¬ hitsSun sqrt sun a) (hab : overlaps sqrt a b)
    (h1 : ∀ o ∈ l1, Apart sqrt a o ∧ Apart sqrt b o) (h2 : ∀ o ∈ l2, Apart sqrt a o) :
    ((cleanupLoop sqrt sun (l1 ++ a :: (l2 ++ b :: l3)).length
        (l1 ++ a :: (l2 ++ b :: l3))).1.filter radiusOk).Sublist (l1 ++ (l2 ++ l3)) := by
  obtain ⟨A, t2, ⟨c2, c3, ht2, hc2, hsub2, hsub3⟩, hlen, hout, hA⟩ :=
    cleanupLoop_frame sqrt sun (fun q => Apart sqrt a q ∧ Apart sqrt b q)
      (fun t => ∃ c2 c3, t = a :: (c2 ++ b :: c3) ∧ (∀ o ∈ c2, Apart sqrt a o)
        ∧ (c2.filter radiusOk).Sublist l2 ∧ (c3.filter radiusOk).Sublist l3)
      (fun q hq => ⟨apart_markDead sqrt a q hq.1, apart_markDead sqrt b q hq.2⟩)
      (by
        rintro q t t2 ob hq ⟨c2, c3, rfl, hc2, hsub2, hsub3⟩ hscan
        obtain ⟨d, rfl, hscan2⟩ :=
          pairScan_cons_of_not sqrt q a (c2 ++ b :: c3) t2 ob hq.1.1 hscan
        rw [pairScan_append] at hscan2
        cases hs2 : pairScan sqrt q c2 with
        | some v =>
          obtain ⟨d2, ob2⟩ := v
          rw [hs2] at hscan2
          simp only [Option.some.injEq, Prod.mk.injEq] at hscan2
          refine ⟨d2, c3, by rw [← hscan2.1],
            pairScan_forall sqrt q c2 d2 ob2 hs2 _ (fun x hx => apart_markDead sqrt a x hx) hc2,
            (pairScan_filter_sublist sqrt q c2 d2 ob2 hs2).trans hsub2, hsub3⟩
        | none =>
          rw [hs2] at hscan2
          cases hs3 : pairScan sqrt q (b :: c3) with
          | none => rw [hs3] at hscan2; simp at hscan2
          | some v =>
            obtain ⟨d3, ob3⟩ := v
            rw [hs3] at hscan2
            simp only [Option.some.injEq, Prod.mk.injEq] at hscan2
            obtain ⟨e, rfl, hscan3⟩ := pairScan_cons_of_not sqrt q b c3 d3 ob3 hq.2.1 hs3
            exact ⟨c2, e, by rw [← hscan2.1], hc2, hsub2,
              (pairScan_filter_sublist sqrt q c3 e ob3 hscan3).trans hsub3⟩)
      l1.length l1 (a :: (l2 ++ b :: l3)) (a :: (l2 ++ b :: l3)).length rfl h1
      ⟨l2, l3, rfl, h2, List.filter_sublist l2, List.filter_sublist l3⟩
  subst ht2
  have hscan : pairScan sqrt a (c2 ++ b :: c3) = some (c2 ++ b.markDead :: c3, b.body) := by
    rw [pairScan_append, pairScan_none_of_apart sqrt a c2 hc2]
    simp [pairScan, hab]
  rw [List.length_append, hout]
  simp only [List.length_cons, cleanupLoop, hsun, if_false, hscan, List.filter_append]
  refine List.Sublist.append (hA.trans (List.filter_sublist l1)) ?_
  refine (cleanupLoop_filter_sublist sqrt sun _ _).trans ?_
  rw [List.filter_append, List.filter_cons_of_neg (by simp [radiusOk_markDead])]
  exact List.Sublist.append hsub2 hsub3

theorem isSqrt_real : IsSqrt Real.sqrt := fun x hx =>
  ⟨Real.sqrt_nonneg x, Real.mul_self_sqrt hx⟩

theorem sqrt_lt_iff (sqrt : α → α) (hsqrt : IsSqrt sqrt) (s t : α) (hs : 0 ≤ s) :
    sqrt s < t ↔ 0 < t ∧ s < t * t := by
  obtain ⟨h0, h1⟩ := hsqrt s hs
  constructor
  · intro h
    refine ⟨lt_of_le_of_lt h0 h, ?_⟩
    calc s = sqrt s * sqrt s := h1.symm
      _ < t * t := mul_self_lt_mul_self h0 h
  · rintro ⟨ht, hlt⟩
    by_contra hc
    have hle : t ≤ sqrt s := not_lt.mp hc
    have : t * t ≤ sqrt s * sqrt s := mul_self_le_mul_self ht.le hle
    rw [h1] at this
    exact absurd hlt (not_lt.mpr this)

theorem hitsSun_iff (sqrt : α → α) (hsqrt : IsSqrt sqrt) (sun : Sun α) (p : Planet α) :
    hitsSun sqrt sun p ↔ 0 < sun.radius_px + p.radius_px
      ∧ (p.spritePos.x - sun.shapePos.x) * (p.spritePos.x - sun.shapePos.x)
          + (p.spritePos.y - sun.shapePos.y) * (p.spritePos.y - sun.shapePos.y)
        < (sun.radius_px + p.radius_px) * (sun.radius_px + p.radius_px) :=
  sqrt_lt_iff sqrt hsqrt _ _ (add_nonneg (mul_self_nonneg _) (mul_self_nonneg _))

theorem overlaps_iff (sqrt : α → α) (hsqrt : IsSqrt sqrt) (p o : Planet α) :
    overlaps sqrt p o ↔ 0 < p.radius_px + o.radius_px
      ∧ (p.spritePos.x - o.spritePos.x) * (p.spritePos.x - o.spritePos.x)
          + (p.spritePos.y - o.spritePos.y) * (p.spritePos.y - o.spritePos.y)
        < (p.radius_px + o.radius_px) * (p.radius_px + o.radius_px) :=
  sqrt_lt_iff sqrt hsqrt _ _ (add_nonneg (mul_self_nonneg _) (mul_self_nonneg _))


theorem nodup_body_ne (l1 l2 : List (Planet α)) (a q : Planet α)
    (h : ((l1 ++ a :: l2).map Planet.body).Nodup) (hq : q ∈ l1 ++ l2) : q.body ≠ a.body := by
  rw [List.map_append, List.map_cons, List.nodup_middle, List.nodup_cons,
    ← List.map_append] at h
  intro hc
  exact h.1 (hc ▸ List.mem_map_of_mem Planet.body hq)

/-- C1: after `cleanupDead` no planet of the list passes the sun test
`dist < sun.radius + planet.radius`, and no two planets at different places of the list
pass the pair test `d2 < radius_a + radius_b`, in either order.  It holds for every sun and
every list of planets, those with non-negative radii included. -/
theorem cleanupDead_leaves_no_collision (sqrt : α → α) (sun : Sun α)
    (planets : List (Planet α)) :
    (∀ p ∈ (cleanupDead sqrt sun planets).1, ¬ hitsSun sqrt sun p)
    ∧ (cleanupDead sqrt sun planets).1.Pairwise
        (fun a b => ¬ overlaps sqrt a b ∧ ¬ overlaps sqrt b a) := by
  constructor
  · intro p hp
    exact cleanupLoop_not_hitsSun sqrt sun _ _ p (List.mem_of_mem_filter hp)
  · refine (cleanupLoop_pairwise sqrt sun planets.length planets).imp ?_
    intro a b h
    exact ⟨h, fun hc => h ((overlaps_comm sqrt b a).mp hc)⟩

/-- C6: two planets `a` (the earlier in scan order) and `b` that pass the pair test with
each other, with `a` clear of the sun and no other planet of the list passing the pair
test with either, are both gone after `cleanupDead`: what is left is drawn, in order, from
the other planets, so no planet left has the body of `a` or of `b` when bodies are
distinct, and a list of just these two becomes empty. -/
theorem cleanupDead_removes_overlapping_pair (sqrt : α → α) (sun : Sun α) (a b : Planet α)
    (l1 l2 l3 : List (Planet α))
    (hpos : ∀ o ∈ l1 ++ a :: (l2 ++ b :: l3), 0 < o.radius_px)
    (hab : overlaps sqrt a b) (hsa : ¬ hitsSun sqrt sun a)
    (hoth : ∀ o ∈ l1 ++ (l2 ++ l3), ¬ overlaps sqrt a o ∧ ¬ overlaps sqrt b o) :
    (cleanupDead sqrt sun (l1 ++ a :: (l2 ++ b :: l3))).1.Sublist (l1 ++ (l2 ++ l3))
    ∧ (((l1 ++ a :: (l2 ++ b :: l3)).map Planet.body).Nodup →
        ∀ q ∈ (cleanupDead sqrt sun (l1 ++ a :: (l2 ++ b :: l3))).1,
          q.body ≠ a.body ∧ q.body ≠ b.body)
    ∧ (l1 = [] → l2 = [] → l3 = [] →
        (cleanupDead sqrt sun (l1 ++ a :: (l2 ++ b :: l3))).1 = []) := by
  have hap : ∀ o ∈ l1 ++ (l2 ++ l3), Apart sqrt a o ∧ Apart sqrt b o := by
    intro o ho
    have hr : -1 ≤ o.radius_px := by
      have : 0 < o.radius_px := hpos o (by
        simp only [List.mem_append, List.mem_cons] at ho ⊢
        tauto)
      linarith
    exact ⟨apart_of_not_overlaps sqrt a o (hoth o ho).1 hr,
      apart_of_not_overlaps sqrt b o (hoth o ho).2 hr⟩
  have hsub : (cleanupDead sqrt sun (l1 ++ a :: (l2 ++ b :: l3))).1.Sublist
      (l1 ++ (l2 ++ l3)) :=
    cleanupLoop_drops_pair sqrt sun a b l1 l2 l3 hsa hab
      (fun o ho => hap o (List.mem_append_left _ ho))
      (fun o ho => (hap o (List.mem_append_right _ (List.mem_append_left _ ho))).1)
  refine ⟨hsub, ?_, ?_⟩
  · intro hnd q hq
    have hq2 : q ∈ l1 ++ (l2 ++ l3) := hsub.subset hq
    simp only [List.mem_append] at hq2
    constructor
    · refine nodup_body_ne l1 (l2 ++ b :: l3) a q hnd ?_
      simp only [List.mem_append, List.mem_cons]
      tauto
    · refine nodup_body_ne (l1 ++ a :: l2) l3 b q (by simpa using hnd) ?_
      simp only [List.mem_append, List.mem_cons]
      tauto
  · rintro rfl rfl rfl
    exact List.sublist_nil.mp hsub

/-- C7: a planet `p` of positive radius that fails the sun test and fails the pair test
against every other planet of the list (all of positive radius) is still in the list after
`cleanupDead`, as the same record, hence with its radius, and at its place among the
planets kept: those before it are drawn in order from the ones before it, those after it
from the ones after it. -/
theorem cleanupDead_keeps_clear_planet (sqrt : α → α) (sun : Sun α) (p : Planet α)
    (l1 l2 : List (Planet α))
    (hpos : ∀ o ∈ l1 ++ p :: l2, 0 < o.radius_px)
    (hsun : ¬ hitsSun sqrt sun p)
    (hclear : ∀ o ∈ l1 ++ l2, ¬ overlaps sqrt p o) :
    ∃ r1 r2, (cleanupDead sqrt sun (l1 ++ p :: l2)).1 = r1 ++ p :: r2
      ∧ r1.Sublist l1 ∧ r2.Sublist l2 := by
  have hp : radiusOk p = true := by
    have : 0 < p.radius_px := hpos p (by simp)
    simp [radiusOk, this.le]
  have hap : ∀ o ∈ l1 ++ l2, Apart sqrt p o := by
    intro o ho
    have : 0 < o.radius_px := hpos o (by
      simp only [List.mem_append, List.mem_cons] at ho ⊢
      tauto)
    exact apart_of_not_overlaps sqrt p o (hclear o ho) (by linarith)
  exact cleanupLoop_keeps sqrt sun p l1 l2 hp hsun
    (fun o ho => hap o (List.mem_append_left _ ho))
    (fun o ho => hap o (List.mem_append_right _ ho))

/-- C8: a second `cleanupDead` right after the first returns the list the first one left
and calls `DestroyBody` on nothing.  It holds for every sun and every list of planets. -/
theorem cleanupDead_idempotent (sqrt : α → α) (sun : Sun α) (planets : List (Planet α)) :
    cleanupDead sqrt sun (cleanupDead sqrt sun planets).1
      = ((cleanupDead sqrt sun planets).1, []) := by
  have h1 := cleanupLoop_fixed sqrt sun (cleanupDead sqrt sun planets).1
    (fun p hp => cleanupLoop_not_hitsSun sqrt sun _ _ p (List.mem_of_mem_filter hp))
    (cleanupLoop_pairwise sqrt sun planets.length planets)
  have h2 : (cleanupDead sqrt sun planets).1.filter radiusOk
      = (cleanupDead sqrt sun planets).1 := by
    simp [cleanupDead, List.filter_filter]
  rw [cleanupDead.eq_1 sqrt sun (cleanupDead sqrt sun planets).1]
  simp only [h1, h2]

end Pruning

/-! ## Properties of spawning -/

section Spawning

variable {α : Type} [LinearOrderedField α]

theorem sqrt_unique (sqrt : α → α) (hsqrt : IsSqrt sqrt) (x t : α) (ht : 0 ≤ t)
    (h : t * t = x) : sqrt x = t := by
  have hx : 0 ≤ x := h ▸ mul_self_nonneg t
  obtain ⟨h0, h1⟩ := hsqrt x hx
  exact (mul_self_inj h0 ht).mp (h1.trans h.symm)

/-- The value of `orbitalVelocity` when the two bodies are at least `1/100` apart. -/
theorem orbitalVelocity_far (sqrt : α → α) (hsqrt : IsSqrt sqrt) (G M : α)
    (sunPos planetPos : b2Vec2 α) (signDraw : α)
    (hfar : 1 / 100 ≤ (planetPos.sub sunPos).Length sqrt) :
    orbitalVelocity sqrt G M sunPos planetPos signDraw =
      some
        ⟨(if signDraw < 1 / 2 then -sqrt (G * M / (planetPos.sub sunPos).Length sqrt)
            else sqrt (G * M / (planetPos.sub sunPos).Length sqrt))
          * (-(planetPos.y - sunPos.y) * (1 / (planetPos.sub sunPos).Length sqrt)),
        (if signDraw < 1 / 2 then -sqrt (G * M / (planetPos.sub sunPos).Length sqrt)
            else sqrt (G * M / (planetPos.sub sunPos).Length sqrt))
          * ((planetPos.x - sunPos.x) * (1 / (planetPos.sub sunPos).Length sqrt))⟩ := by
  have hsq : 0 ≤ (planetPos.x - sunPos.x) * (planetPos.x - sunPos.x)
      + (planetPos.y - sunPos.y) * (planetPos.y - sunPos.y) :=
    add_nonneg (mul_self_nonneg _) (mul_self_nonneg _)
  have hlen : (planetPos.sub sunPos).Length sqrt
      = sqrt ((planetPos.x - sunPos.x) * (planetPos.x - sunPos.x)
        + (planetPos.y - sunPos.y) * (planetPos.y - sunPos.y)) := rfl
  have htang : (⟨-(planetPos.sub sunPos).y, (planetPos.sub sunPos).x⟩ : b2Vec2 α).Length sqrt
      = (planetPos.sub sunPos).Length sqrt := by
    simp only [b2Vec2.Length, b2Vec2.sub]
    congr 1
    ring
  have hpos : 0 < (planetPos.sub sunPos).Length sqrt := lt_of_lt_of_le (by norm_num) hfar
  have hsqpos : 0 < (⟨-(planetPos.sub sunPos).y, (planetPos.sub sunPos).x⟩ :
      b2Vec2 α).LengthSquared := by
    have h1 := (hsqrt _ hsq).2
    rw [← hlen] at h1
    have h2 : 0 < (planetPos.sub sunPos).Length sqrt * (planetPos.sub sunPos).Length sqrt :=
      mul_pos hpos hpos
    simp only [b2Vec2.LengthSquared, b2Vec2.sub]
    rw [h1] at h2
    linarith
  have hclamp : ¬ (planetPos.sub sunPos).Length sqrt < 1 / 100 := not_lt.mpr hfar
  have heps : ¬ (planetPos.sub sunPos).Length sqrt < (b2_epsilon : α) := by
    have : (b2_epsilon : α) ≤ 1 / 100 := by unfold b2_epsilon; norm_num
    exact not_lt.mpr (this.trans hfar)
  unfold orbitalVelocity
  simp only [hclamp, if_false, hsqpos, if_true, b2Vec2.Normalize, htang, heps]
  simp [b2Vec2.sub]

/-- The distance between the two bodies, in simulation units, is the display distance
times `INV_PPM`. -/
theorem length_scaled (sqrt : α → α) (hsqrt : IsSqrt sqrt) (a b : Vector2f α) :
    (b2Vec2.sub ⟨a.x * INV_PPM, a.y * INV_PPM⟩ ⟨b.x * INV_PPM, b.y * INV_PPM⟩).Length sqrt
      = sqrt ((a.x - b.x) * (a.x - b.x) + (a.y - b.y) * (a.y - b.y)) * INV_PPM := by
  have hD : 0 ≤ (a.x - b.x) * (a.x - b.x) + (a.y - b.y) * (a.y - b.y) :=
    add_nonneg (mul_self_nonneg _) (mul_self_nonneg _)
  obtain ⟨h0, h1⟩ := hsqrt _ hD
  have hI : (0 : α) ≤ INV_PPM := by unfold INV_PPM PIXELS_PER_METER; norm_num
  apply sqrt_unique sqrt hsqrt _ _ (mul_nonneg h0 hI)
  simp only [b2Vec2.sub]
  calc sqrt ((a.x - b.x) * (a.x - b.x) + (a.y - b.y) * (a.y - b.y)) * INV_PPM
        * (sqrt ((a.x - b.x) * (a.x - b.x) + (a.y - b.y) * (a.y - b.y)) * INV_PPM)
      = (sqrt ((a.x - b.x) * (a.x - b.x) + (a.y - b.y) * (a.y - b.y))
          * sqrt ((a.x - b.x) * (a.x - b.x) + (a.y - b.y) * (a.y - b.y)))
          * (INV_PPM * INV_PPM) := by ring
    _ = ((a.x - b.x) * (a.x - b.x) + (a.y - b.y) * (a.y - b.y)) * (INV_PPM * INV_PPM) := by
        rw [h1]
    _ = _ := by ring

theorem length_far (sqrt : α → α) (hsqrt : IsSqrt sqrt) (a b : Vector2f α) (R : α)
    (hR : 0 ≤ R)
    (hd : ¬ sqrt ((a.x - b.x) * (a.x - b.x) + (a.y - b.y) * (a.y - b.y)) < R + 5) :
    1 / 100 ≤
      (b2Vec2.sub ⟨a.x * INV_PPM, a.y * INV_PPM⟩ ⟨b.x * INV_PPM, b.y * INV_PPM⟩).Length sqrt := by
  rw [length_scaled sqrt hsqrt]
  have h5 : 5 ≤ sqrt ((a.x - b.x) * (a.x - b.x) + (a.y - b.y) * (a.y - b.y)) := by
    have := not_lt.mp hd
    linarith
  unfold INV_PPM PIXELS_PER_METER
  linarith

/-- A vector `sigma * (-ry / r, rx / r)` with `r` the length of `(rx, ry)` and `sigma` plus
or minus a non-negative `speed` has length `speed` and is perpendicular to `(rx, ry)`. -/
theorem tangent_props (sqrt : α → α) (hsqrt : IsSqrt sqrt) (rx ry r speed sigma : α)
    (hr : r * r = rx * rx + ry * ry) (hrpos : 0 < r) (hspeed : 0 ≤ speed)
    (hsigma : sigma = -speed ∨ sigma = speed) :
    sqrt (sigma * (-ry * (1 / r)) * (sigma * (-ry * (1 / r)))
        + sigma * (rx * (1 / r)) * (sigma * (rx * (1 / r)))) = speed
    ∧ sigma * (-ry * (1 / r)) * rx + sigma * (rx * (1 / r)) * ry = 0 := by
  have hne : r ≠ 0 := hrpos.ne'
  constructor
  · apply sqrt_unique sqrt hsqrt _ _ hspeed
    have h1 : sigma * (-ry * (1 / r)) * (sigma * (-ry * (1 / r)))
        + sigma * (rx * (1 / r)) * (sigma * (rx * (1 / r)))
        = sigma * sigma * ((rx * rx + ry * ry) / (r * r)) := by
      field_simp
      ring
    rw [h1, ← hr, div_self (mul_ne_zero hne hne)]
    rcases hsigma with h | h <;> rw [h] <;> ring
  · field_simp
    ring

/-- The system an accepted spawn leaves: one more planet, on a fresh dynamic body that
carries the velocity computed by `spawnPlanetAt` itself. -/
theorem spawnPlanetAt_eq (sqrt : α → α) (hsqrt : IsSqrt sqrt) (b2_pi : α)
    (s : SolarSystem α) (sun : Sun α) (sb : b2Body α) (pos_px : Vector2f α)
    (radiusDraw signDraw1 signDraw2 : α)
    (hsun : s.sun = some sun) (hfresh : s.world.Fresh)
    (hsb : s.world.bodies sun.body = some sb)
    (hsbpos : sb.position = ⟨sun.shapePos.x * INV_PPM, sun.shapePos.y * INV_PPM⟩)
    (hrad : 0 ≤ sun.radius_px)
    (hd : ¬ sqrt ((pos_px.x - sun.shapePos.x) * (pos_px.x - sun.shapePos.x)
        + (pos_px.y - sun.shapePos.y) * (pos_px.y - sun.shapePos.y)) < sun.radius_px + 5) :
    ∃ v1 v2 mass,
      orbitalVelocity sqrt s.GRAVITATIONAL_CONSTANT s.SUN_MASS sb.position
        ⟨pos_px.x * INV_PPM, pos_px.y * INV_PPM⟩ signDraw2 = some v2 ∧
      orbitalVelocity sqrt 3 10000 sb.position
        ⟨pos_px.x * INV_PPM, pos_px.y * INV_PPM⟩ signDraw1 = some v1 ∧
      s.spawnPlanetAt sqrt b2_pi pos_px radiusDraw signDraw1 signDraw2 =
        some { s with
          world := ⟨Function.update s.world.bodies s.world.nextHandle
            (some ⟨.b2_dynamicBody, ⟨pos_px.x * INV_PPM, pos_px.y * INV_PPM⟩, v2, mass, 0,
              ⟨0, 0⟩⟩), s.world.nextHandle + 1⟩,
          planets := s.planets ++ [⟨s.world.nextHandle, radiusDraw, pos_px,
            sqrt ((pos_px.x - sun.shapePos.x) * (pos_px.x - sun.shapePos.x)
              + (pos_px.y - sun.shapePos.y) * (pos_px.y - sun.shapePos.y)), sun.shapePos⟩] } := by
  have hne : sun.body ≠ s.world.nextHandle := by
    intro hc
    have := hfresh.2 s.world.nextHandle le_rfl
    rw [← hc, hsb] at this
    cases this
  have hfar : 1 / 100 ≤ (b2Vec2.sub (⟨pos_px.x * INV_PPM, pos_px.y * INV_PPM⟩ : b2Vec2 α)
      sb.position).Length sqrt := by
    rw [hsbpos]
    exact length_far sqrt hsqrt pos_px sun.shapePos sun.radius_px hrad hd
  have hv1 := orbitalVelocity_far sqrt hsqrt 3 10000 sb.position
    ⟨pos_px.x * INV_PPM, pos_px.y * INV_PPM⟩ signDraw1 hfar
  have hv2 := orbitalVelocity_far sqrt hsqrt s.GRAVITATIONAL_CONSTANT s.SUN_MASS sb.position
    ⟨pos_px.x * INV_PPM, pos_px.y * INV_PPM⟩ signDraw2 hfar
  refine ⟨_, _, if 0 < 1 / 2 * (b2_pi * (radiusDraw * INV_PPM) * (radiusDraw * INV_PPM)) then
    1 / 2 * (b2_pi * (radiusDraw * INV_PPM) * (radiusDraw * INV_PPM)) else 1, hv2, hv1, ?_⟩
  have hhalf : (0 : α) < 1 / 2 := by norm_num
  simp only [SolarSystem.spawnPlanetAt, hsun, hd, if_false, Planet.new, b2World.CreateBody,
    b2World.CreateFixture, b2World.SetGravityScale, b2World.modify, b2World.GetPosition,
    Function.update_same, Function.update_noteq hne, hsb, Option.map_some', hv1, hv2,
    setOrbitalVelocity, b2World.SetLinearVelocity, Function.update_idem, hhalf, if_true]

theorem fresh_new : (SolarSystem.new : SolarSystem α).world.Fresh :=
  ⟨rfl, fun _ _ => rfl⟩

/-- What `createSun` leaves in a world with fresh handles: the sun on a new static body at
the sun's display position scaled by `INV_PPM`, and fresh handles again. -/
theorem createSun_spec (b2_pi : α) (s : SolarSystem α) (pos_px : Vector2f α) (radius_px : α)
    (hfresh : s.world.Fresh) (hnz : 0 < s.world.nextHandle) :
    (s.createSun b2_pi pos_px radius_px).sun = some ⟨s.world.nextHandle, radius_px, pos_px⟩
    ∧ (s.createSun b2_pi pos_px radius_px).world.Fresh
    ∧ (s.createSun b2_pi pos_px radius_px).world.bodies s.world.nextHandle
        = some ⟨.b2_staticBody, ⟨pos_px.x * INV_PPM, pos_px.y * INV_PPM⟩, ⟨0, 0⟩, 0, 1, ⟨0, 0⟩⟩
    ∧ (s.createSun b2_pi pos_px radius_px).world.nextHandle = s.world.nextHandle + 1
    ∧ (s.createSun b2_pi pos_px radius_px).planets = s.planets
    ∧ (s.createSun b2_pi pos_px radius_px).GRAVITATIONAL_CONSTANT = s.GRAVITATIONAL_CONSTANT
    ∧ (s.createSun b2_pi pos_px radius_px).SUN_MASS = s.SUN_MASS := by
  refine ⟨rfl, ⟨?_, ?_⟩, ?_, rfl, rfl, rfl, rfl⟩
  · simp only [SolarSystem.createSun, Sun.new, b2World.CreateBody, b2World.CreateFixture,
      b2World.modify, Function.update_idem]
    rw [Function.update_noteq hnz.ne]
    exact hfresh.1
  · intro h hh
    simp only [SolarSystem.createSun, Sun.new, b2World.CreateBody, b2World.CreateFixture,
      b2World.modify, Function.update_idem] at hh ⊢
    rw [Function.update_noteq (by omega)]
    exact hfresh.2 h (by omega)
  · simp only [SolarSystem.createSun, Sun.new, b2World.CreateBody, b2World.CreateFixture,
      b2World.modify, Function.update_same, Option.map_some', ite_self]

/-- C2: `spawnPlanetAt` changes nothing (same world, hence no new body, and same planets)
when there is no sun, and when the distance `sqrt(dx*dx + dy*dy)` from the spawn point to
the sun's position is less than `sun.radius + 5`. -/
theorem spawnPlanetAt_rejected (sqrt : α → α) (b2_pi : α) (s : SolarSystem α)
    (pos_px : Vector2f α) (radiusDraw signDraw1 signDraw2 : α)
    (h : s.sun = none ∨ ∃ sun, s.sun = some sun ∧
      sqrt ((pos_px.x - sun.shapePos.x) * (pos_px.x - sun.shapePos.x)
        + (pos_px.y - sun.shapePos.y) * (pos_px.y - sun.shapePos.y)) < sun.radius_px + 5) :
    s.spawnPlanetAt sqrt b2_pi pos_px radiusDraw signDraw1 signDraw2 = some s := by
  rcases h with h | ⟨sun, hs, hd⟩
  · simp only [SolarSystem.spawnPlanetAt, h]
  · simp only [SolarSystem.spawnPlanetAt, hs, hd, if_true]

/-- C3: an accepted spawn (sun of non-negative radius, display distance at least
`sun.radius + 5`, sun body at the sun's display position scaled by `INV_PPM`) appends
exactly one planet `p`; the distance between its body and the sun's body is the display
distance times `INV_PPM`; the velocity left on its body has length `sqrt(G*M/r)` for that
distance `r`, is perpendicular to the radius vector, and is the unit tangent
`(-ry/r, rx/r)` scaled by `sqrt(G*M/r)` or by its opposite, as the last sign draw
decides. -/
theorem spawnPlanetAt_sets_orbital_velocity (sqrt : α → α) (hsqrt : IsSqrt sqrt) (b2_pi : α)
    (s : SolarSystem α) (sun : Sun α) (sb : b2Body α) (pos_px : Vector2f α)
    (radiusDraw signDraw1 signDraw2 : α)
    (hsun : s.sun = some sun) (hfresh : s.world.Fresh)
    (hsb : s.world.bodies sun.body = some sb)
    (hsbpos : sb.position = ⟨sun.shapePos.x * INV_PPM, sun.shapePos.y * INV_PPM⟩)
    (hrad : 0 ≤ sun.radius_px)
    (hd : ¬ sqrt ((pos_px.x - sun.shapePos.x) * (pos_px.x - sun.shapePos.x)
        + (pos_px.y - sun.shapePos.y) * (pos_px.y - sun.shapePos.y)) < sun.radius_px + 5)
    (hGM : 0 ≤ s.GRAVITATIONAL_CONSTANT * s.SUN_MASS) :
    ∃ (s2 : SolarSystem α) (p : Planet α) (pb : b2Body α),
      s.spawnPlanetAt sqrt b2_pi pos_px radiusDraw signDraw1 signDraw2 = some s2
      ∧ s2.planets = s.planets ++ [p]
      ∧ s2.world.bodies p.body = some pb
      ∧ s2.world.bodies sun.body = some sb
      ∧ (pb.position.sub sb.position).Length sqrt
          = sqrt ((pos_px.x - sun.shapePos.x) * (pos_px.x - sun.shapePos.x)
              + (pos_px.y - sun.shapePos.y) * (pos_px.y - sun.shapePos.y)) * INV_PPM
      ∧ sqrt (pb.linearVelocity.x * pb.linearVelocity.x
            + pb.linearVelocity.y * pb.linearVelocity.y)
          = sqrt (s.GRAVITATIONAL_CONSTANT * s.SUN_MASS
              / (pb.position.sub sb.position).Length sqrt)
      ∧ pb.linearVelocity.x * (pb.position.x - sb.position.x)
          + pb.linearVelocity.y * (pb.position.y - sb.position.y) = 0
      ∧ pb.linearVelocity
          = b2Vec2.smul
              (if signDraw2 < 1 / 2 then
                -sqrt (s.GRAVITATIONAL_CONSTANT * s.SUN_MASS
                  / (pb.position.sub sb.position).Length sqrt)
              else
                sqrt (s.GRAVITATIONAL_CONSTANT * s.SUN_MASS
                  / (pb.position.sub sb.position).Length sqrt))
              ⟨-(pb.position.y - sb.position.y) / (pb.position.sub sb.position).Length sqrt,
                (pb.position.x - sb.position.x) / (pb.position.sub sb.position).Length sqrt⟩ := by
  obtain ⟨v1, v2, mass, hv2, -, hspawn⟩ := spawnPlanetAt_eq sqrt hsqrt b2_pi s sun sb pos_px
    radiusDraw signDraw1 signDraw2 hsun hfresh hsb hsbpos hrad hd
  have hne : sun.body ≠ s.world.nextHandle := by
    intro hc
    have := hfresh.2 s.world.nextHandle le_rfl
    rw [← hc, hsb] at this
    cases this
  have hfar : 1 / 100 ≤ (b2Vec2.sub (⟨pos_px.x * INV_PPM, pos_px.y * INV_PPM⟩ : b2Vec2 α)
      sb.position).Length sqrt := by
    rw [hsbpos]
    exact length_far sqrt hsqrt pos_px sun.shapePos sun.radius_px hrad hd
  have hlen : (b2Vec2.sub (⟨pos_px.x * INV_PPM, pos_px.y * INV_PPM⟩ : b2Vec2 α)
      sb.position).Length sqrt
      = sqrt ((pos_px.x - sun.shapePos.x) * (pos_px.x - sun.shapePos.x)
          + (pos_px.y - sun.shapePos.y) * (pos_px.y - sun.shapePos.y)) * INV_PPM := by
    rw [hsbpos]
    exact length_scaled sqrt hsqrt pos_px sun.shapePos
  have hv := (orbitalVelocity_far sqrt hsqrt s.GRAVITATIONAL_CONSTANT s.SUN_MASS sb.position
    ⟨pos_px.x * INV_PPM, pos_px.y * INV_PPM⟩ signDraw2 hfar).symm.trans hv2
  have hv3 := (Option.some.inj hv).symm
  generalize hr : (b2Vec2.sub (⟨pos_px.x * INV_PPM, pos_px.y * INV_PPM⟩ : b2Vec2 α)
      sb.position).Length sqrt = r at hfar hlen hv3
  have hrpos : 0 < r := lt_of_lt_of_le (by norm_num) hfar
  have hr2 : r * r = (pos_px.x * INV_PPM - sb.position.x) * (pos_px.x * INV_PPM - sb.position.x)
      + (pos_px.y * INV_PPM - sb.position.y) * (pos_px.y * INV_PPM - sb.position.y) := by
    rw [← hr]
    exact (hsqrt _ (add_nonneg (mul_self_nonneg _) (mul_self_nonneg _))).2
  have hspeed : 0 ≤ sqrt (s.GRAVITATIONAL_CONSTANT * s.SUN_MASS / r) :=
    (hsqrt _ (div_nonneg hGM hrpos.le)).1
  obtain ⟨hmag, hperp⟩ := tangent_props sqrt hsqrt (pos_px.x * INV_PPM - sb.position.x)
    (pos_px.y * INV_PPM - sb.position.y) r
    (sqrt (s.GRAVITATIONAL_CONSTANT * s.SUN_MASS / r))
    (if signDraw2 < 1 / 2 then -sqrt (s.GRAVITATIONAL_CONSTANT * s.SUN_MASS / r)
      else sqrt (s.GRAVITATIONAL_CONSTANT * s.SUN_MASS / r))
    hr2 hrpos hspeed (by split <;> simp)
  refine ⟨_, _, ⟨.b2_dynamicBody, ⟨pos_px.x * INV_PPM, pos_px.y * INV_PPM⟩, v2, mass, 0,
    ⟨0, 0⟩⟩, hspawn, rfl, ?_, ?_, ?_, ?_, ?_, ?_⟩
  · simp only [Function.update_same]
  · simp only [Function.update_noteq hne, hsb]
  · simp only [hr, hlen]
  · simp only [hr, hv3]
    exact hmag
  · simp only [hv3]
    exact hperp
  · simp only [hr, hv3, b2Vec2.smul, neg_div, div_eq_mul_one_div
      (pos_px.y * INV_PPM - sb.position.y) r, div_eq_mul_one_div
      (pos_px.x * INV_PPM - sb.position.x) r, neg_mul]

end Spawning

/-! ## Properties of gravity -/

section Gravity

variable {α : Type} [LinearOrderedField α]

theorem bodies_modify (w : b2World α) (h k : Nat) (f : b2Body α → b2Body α) :
    (w.modify h f).bodies k = if k = h then (w.bodies h).map f else w.bodies k := by
  unfold b2World.modify
  by_cases hk : k = h
  · subst hk; simp
  · simp [Function.update_noteq hk, hk]

theorem getPosition_applyForce (w : b2World α) (h k : Nat) (f : b2Vec2 α) :
    (w.ApplyForceToCenter h f).GetPosition k = w.GetPosition k := by
  unfold b2World.ApplyForceToCenter b2World.GetPosition
  rw [bodies_modify]
  by_cases hk : k = h
  · subst hk
    cases hb : w.bodies k with
    | none => simp
    | some b => cases ht : b.type <;> simp [ht]
  · simp [hk]

theorem isSome_applyForce (w : b2World α) (h k : Nat) (f : b2Vec2 α) :
    ((w.ApplyForceToCenter h f).bodies k).isSome = (w.bodies k).isSome := by
  unfold b2World.ApplyForceToCenter
  rw [bodies_modify]
  by_cases hk : k = h
  · subst hk; cases hb : w.bodies k <;> simp
  · simp [hk]

theorem bodies_applyForce_ne (w : b2World α) (h k : Nat) (f : b2Vec2 α) (hk : k ≠ h) :
    (w.ApplyForceToCenter h f).bodies k = w.bodies k := by
  unfold b2World.ApplyForceToCenter
  rw [bodies_modify]
  simp [hk]

theorem bodies_applyForce_dynamic (w : b2World α) (h : Nat) (f : b2Vec2 α) (b : b2Body α)
    (hb : w.bodies h = some b) (ht : b.type = .b2_dynamicBody) :
    (w.ApplyForceToCenter h f).bodies h = some { b with force := b.force.add f } := by
  unfold b2World.ApplyForceToCenter
  rw [bodies_modify]
  simp [hb, ht]

theorem gravityStep_eq (sqrt : α → α) (G m1 : α) (sun : Sun α) (w : b2World α) (p : Planet α)
    (sunPos : b2Vec2 α) (pb : b2Body α) (hp : p.body ≠ 0)
    (hs : w.GetPosition sun.body = some sunPos) (hb : w.bodies p.body = some pb) :
    gravityStep sqrt G m1 sun w p = some (w.ApplyForceToCenter p.body
      (gravityForce sqrt G m1 sun.radius_px sunPos pb.position pb.mass)) := by
  unfold gravityStep
  rw [if_neg hp, hs]
  simp [b2World.GetPosition, b2World.GetMass, hb]

/-- The loop of `applyGravity` ends, leaves positions alone, leaves alone the bodies of no
planet, and adds to a dynamic body owned by one planet the force computed for it. -/
theorem gravityLoop_spec (sqrt : α → α) (G m1 : α) (sun : Sun α) (sunPos : b2Vec2 α) :
    ∀ (l : List (Planet α)) (w : b2World α),
      w.GetPosition sun.body = some sunPos →
      (∀ q ∈ l, q.body ≠ 0 → (w.bodies q.body).isSome = true) →
      ∃ w2, gravityLoop sqrt G m1 sun l w = some w2
        ∧ (∀ k, w2.GetPosition k = w.GetPosition k)
        ∧ (∀ k, (∀ q ∈ l, q.body ≠ 0 → q.body ≠ k) → w2.bodies k = w.bodies k)
        ∧ ((l.map Planet.body).Nodup → ∀ p ∈ l, p.body ≠ 0 → ∀ pb, w.bodies p.body = some pb →
            pb.type = .b2_dynamicBody →
            w2.bodies p.body = some { pb with
              force := pb.force.add
                (gravityForce sqrt G m1 sun.radius_px sunPos pb.position pb.mass) }) := by
  intro l
  induction l with
  | nil =>
    intro w _ _
    exact ⟨w, rfl, fun _ => rfl, fun _ _ => rfl, fun _ p hp => by simp at hp⟩
  | cons q rest ih =>
    intro w hs hlive
    by_cases hq : q.body = 0
    · obtain ⟨w2, h1, h2, h3, h4⟩ := ih w hs
        (fun x hx => hlive x (List.mem_cons_of_mem _ hx))
      refine ⟨w2, by simp [gravityLoop, gravityStep, hq, h1], h2, ?_, ?_⟩
      · intro k hk
        exact h3 k (fun x hx => hk x (List.mem_cons_of_mem _ hx))
      · intro hnd p hp hp0 pb hpb hdyn
        rcases List.mem_cons.mp hp with rfl | hp
        · exact absurd hq hp0
        · exact h4 (List.nodup_cons.mp hnd).2 p hp hp0 pb hpb hdyn
    · obtain ⟨qb, hqb⟩ := Option.isSome_iff_exists.mp (hlive q (List.mem_cons_self _ _) hq)
      have hstep := gravityStep_eq sqrt G m1 sun w q sunPos qb hq hs hqb
      obtain ⟨w2, h1, h2, h3, h4⟩ := ih
        (w.ApplyForceToCenter q.body
          (gravityForce sqrt G m1 sun.radius_px sunPos qb.position qb.mass))
        (by rw [getPosition_applyForce]; exact hs)
        (fun x hx hx0 => by
          rw [isSome_applyForce]; exact hlive x (List.mem_cons_of_mem _ hx) hx0)
      refine ⟨w2, by simp [gravityLoop, hstep, h1], ?_, ?_, ?_⟩
      · intro k
        rw [h2 k, getPosition_applyForce]
      · intro k hk
        rw [h3 k (fun x hx => hk x (List.mem_cons_of_mem _ hx)),
          bodies_applyForce_ne _ _ _ _ (Ne.symm (hk q (List.mem_cons_self _ _) hq))]
      · intro hnd p hp hp0 pb hpb hdyn
        have hnd2 := List.nodup_cons.mp hnd
        rcases List.mem_cons.mp hp with rfl | hp
        · rw [h3 p.body (fun x hx _ hc => hnd2.1 (hc ▸ List.mem_map_of_mem Planet.body hx))]
          rw [hqb] at hpb
          cases hpb
          exact bodies_applyForce_dynamic _ _ _ _ hqb hdyn
        · have hne : p.body ≠ q.body := fun hc =>
            hnd2.1 (hc ▸ List.mem_map_of_mem Planet.body hp)
          exact h4 hnd2.2 p hp hp0 pb
            (by rw [bodies_applyForce_ne _ _ _ _ hne]; exact hpb) hdyn

theorem gravityForce_eq (sqrt : α → α) (G m1 R : α) (sunPos planetPos : b2Vec2 α) (m2 : α) :
    gravityForce sqrt G m1 R sunPos planetPos m2
      = b2Vec2.smul
          (G * m1 * m2 / max ((sunPos.sub planetPos).Length sqrt) (R * INV_PPM * (1 / 2)) ^ 2)
          ((sunPos.sub planetPos).Normalize sqrt) := by
  unfold gravityForce
  simp only []
  congr 1
  by_cases h : (sunPos.sub planetPos).Length sqrt < R * INV_PPM * (1 / 2)
  · rw [if_pos h, max_eq_right h.le]; ring
  · rw [if_neg h, max_eq_left (not_lt.mp h)]; ring

theorem length_pos_of_ne (sqrt : α → α) (hsqrt : IsSqrt sqrt) (a b : b2Vec2 α) (hne : a ≠ b) :
    0 < (a.sub b).Length sqrt := by
  have hD : 0 < (a.x - b.x) * (a.x - b.x) + (a.y - b.y) * (a.y - b.y) := by
    by_contra hc
    have h0 : (a.x - b.x) * (a.x - b.x) + (a.y - b.y) * (a.y - b.y) = 0 :=
      le_antisymm (not_lt.mp hc) (add_nonneg (mul_self_nonneg _) (mul_self_nonneg _))
    have hx : a.x - b.x = 0 := by
      have := mul_self_nonneg (a.y - b.y)
      have h1 : (a.x - b.x) * (a.x - b.x) = 0 :=
        le_antisymm (by linarith) (mul_self_nonneg _)
      exact mul_self_eq_zero.mp h1
    have hy : a.y - b.y = 0 := by
      have := mul_self_nonneg (a.x - b.x)
      have h1 : (a.y - b.y) * (a.y - b.y) = 0 :=
        le_antisymm (by linarith) (mul_self_nonneg _)
      exact mul_self_eq_zero.mp h1
    apply hne
    cases a; cases b
    simp only [b2Vec2.mk.injEq]
    exact ⟨sub_eq_zero.mp hx, sub_eq_zero.mp hy⟩
  obtain ⟨h0, h1⟩ := hsqrt _ hD.le
  rcases h0.lt_or_eq with h | h
  · exact h
  · exfalso
    simp only [b2Vec2.Length, b2Vec2.sub] at *
    rw [← h] at h1
    linarith

/-- The force `F * dir` of one round points from the planet to the sun. -/
theorem force_toward_sun (sqrt : α → α) (hsqrt : IsSqrt sqrt) (F : α) (a b : b2Vec2 α)
    (hF : 0 < F) (hne : a ≠ b) :
    ∃ c, 0 < c ∧ b2Vec2.smul F ((a.sub b).Normalize sqrt) = b2Vec2.smul c (a.sub b) := by
  have hlen := length_pos_of_ne sqrt hsqrt a b hne
  unfold b2Vec2.Normalize
  simp only []
  split
  · exact ⟨F, hF, rfl⟩
  · refine ⟨F * (1 / (a.sub b).Length sqrt), mul_pos hF (one_div_pos.mpr hlen), ?_⟩
    simp only [b2Vec2.smul, b2Vec2.mk.injEq]
    constructor <;> ring

/-- The force `F * dir` of one round is no longer than `F`. -/
theorem force_length_le (sqrt : α → α) (hsqrt : IsSqrt sqrt) (F : α) (d : b2Vec2 α)
    (hF : 0 ≤ F) :
    sqrt ((b2Vec2.smul F (d.Normalize sqrt)).x * (b2Vec2.smul F (d.Normalize sqrt)).x
      + (b2Vec2.smul F (d.Normalize sqrt)).y * (b2Vec2.smul F (d.Normalize sqrt)).y) ≤ F := by
  obtain ⟨h0, h1⟩ := hsqrt (d.x * d.x + d.y * d.y)
    (add_nonneg (mul_self_nonneg _) (mul_self_nonneg _))
  unfold b2Vec2.Normalize
  simp only []
  split
  · rename_i hlt
    have heps : (b2_epsilon : α) ≤ 1 := by unfold b2_epsilon; norm_num
    have hl1 : d.Length sqrt ≤ 1 := hlt.le.trans heps
    rw [sqrt_unique sqrt hsqrt _ (F * d.Length sqrt) (mul_nonneg hF h0) (by
      simp only [b2Vec2.smul, b2Vec2.Length]
      calc F * sqrt (d.x * d.x + d.y * d.y) * (F * sqrt (d.x * d.x + d.y * d.y))
          = F * F * (sqrt (d.x * d.x + d.y * d.y) * sqrt (d.x * d.x + d.y * d.y)) := by ring
        _ = F * F * (d.x * d.x + d.y * d.y) := by rw [h1]
        _ = _ := by ring)]
    calc F * d.Length sqrt ≤ F * 1 := mul_le_mul_of_nonneg_left hl1 hF
      _ = F := mul_one F
  · rename_i hge
    have hpos : 0 < d.Length sqrt := by
      have heps : (0 : α) < b2_epsilon := by unfold b2_epsilon; norm_num
      exact lt_of_lt_of_le heps (not_lt.mp hge)
    have hne : d.Length sqrt ≠ 0 := hpos.ne'
    have hL : d.Length sqrt * d.Length sqrt = d.x * d.x + d.y * d.y := h1
    rw [sqrt_unique sqrt hsqrt _ F hF (by
      simp only [b2Vec2.smul]
      have : F * (d.x * (1 / d.Length sqrt)) * (F * (d.x * (1 / d.Length sqrt)))
          + F * (d.y * (1 / d.Length sqrt)) * (F * (d.y * (1 / d.Length sqrt)))
          = F * F * ((d.x * d.x + d.y * d.y) / (d.Length sqrt * d.Length sqrt)) := by
        field_simp
        ring
      rw [this, ← hL, div_self (mul_ne_zero hne hne), mul_one])]

/-- C5: in a system with a sun whose planets' bodies are live and distinct, one
`applyGravity` returns and adds to the force accumulator of every planet's (non-null,
dynamic) body exactly `F * dir`, with `dir` the Box2D-normalised vector from the planet to
the sun, `F = G * SUN_MASS * m / distance^2`, `m` the mass the backend holds for the body
and `distance` the larger of their distance and half the sun's radius, in simulation
units.  For positive `G * SUN_MASS`, positive sun radius, positive mass and a planet not at
the sun's position, the force is a positive multiple of the vector from the planet to the
sun and its length is at most `G * SUN_MASS * m / (sun.radius / 2)^2`. -/
theorem applyGravity_applies_inverse_square_force (sqrt : α → α) (hsqrt : IsSqrt sqrt)
    (s : SolarSystem α) (sun : Sun α) (sb : b2Body α) (dt : α)
    (hsun : s.sun = some sun) (hsb : s.world.bodies sun.body = some sb)
    (hlive : ∀ q ∈ s.planets, q.body ≠ 0 → (s.world.bodies q.body).isSome = true)
    (hnd : (s.planets.map Planet.body).Nodup) :
    ∃ s2, s.applyGravity sqrt dt = some s2 ∧ s2.planets = s.planets
      ∧ ∀ p ∈ s.planets, p.body ≠ 0 → ∀ pb, s.world.bodies p.body = some pb →
          pb.type = .b2_dynamicBody →
          ∃ (distance F : α) (dir : b2Vec2 α),
            distance = max ((sb.position.sub pb.position).Length sqrt)
              (1 / 2 * (sun.radius_px * INV_PPM))
            ∧ dir = (sb.position.sub pb.position).Normalize sqrt
            ∧ F = s.GRAVITATIONAL_CONSTANT * s.SUN_MASS * pb.mass / distance ^ 2
            ∧ s2.world.bodies p.body
                = some { pb with force := pb.force.add (b2Vec2.smul F dir) }
            ∧ (0 < pb.mass → sb.position ≠ pb.position →
                0 < s.GRAVITATIONAL_CONSTANT * s.SUN_MASS → 0 < sun.radius_px →
                (∃ c, 0 < c ∧ b2Vec2.smul F dir = b2Vec2.smul c (sb.position.sub pb.position))
                ∧ sqrt ((b2Vec2.smul F dir).x * (b2Vec2.smul F dir).x
                      + (b2Vec2.smul F dir).y * (b2Vec2.smul F dir).y)
                    ≤ s.GRAVITATIONAL_CONSTANT * s.SUN_MASS * pb.mass
                        / (1 / 2 * (sun.radius_px * INV_PPM)) ^ 2) := by
  have hs : s.world.GetPosition sun.body = some sb.position := by
    simp [b2World.GetPosition, hsb]
  obtain ⟨w2, h1, -, -, h4⟩ := gravityLoop_spec sqrt s.GRAVITATIONAL_CONSTANT s.SUN_MASS sun
    sb.position s.planets s.world hs hlive
  refine ⟨{ s with world := w2 }, by simp [SolarSystem.applyGravity, hsun, h1], rfl, ?_⟩
  intro p hp hp0 pb hpb hdyn
  have hbody := h4 hnd p hp hp0 pb hpb hdyn
  rw [gravityForce_eq] at hbody
  have hcomm : sun.radius_px * INV_PPM * (1 / 2) = 1 / 2 * (sun.radius_px * INV_PPM) :=
    mul_comm _ _
  rw [hcomm] at hbody
  refine ⟨_, _, _, rfl, rfl, rfl, hbody, ?_⟩
  intro hm hne hGM hR
  have hmin : (0 : α) < 1 / 2 * (sun.radius_px * INV_PPM) := by
    unfold INV_PPM PIXELS_PER_METER
    positivity
  have hdist : 0 < max ((sb.position.sub pb.position).Length sqrt)
      (1 / 2 * (sun.radius_px * INV_PPM)) := lt_max_of_lt_right hmin
  have hnum : 0 < s.GRAVITATIONAL_CONSTANT * s.SUN_MASS * pb.mass := mul_pos hGM hm
  have hF : 0 < s.GRAVITATIONAL_CONSTANT * s.SUN_MASS * pb.mass
      / max ((sb.position.sub pb.position).Length sqrt)
        (1 / 2 * (sun.radius_px * INV_PPM)) ^ 2 := div_pos hnum (pow_pos hdist 2)
  refine ⟨force_toward_sun sqrt hsqrt _ _ _ hF hne, ?_⟩
  refine (force_length_le sqrt hsqrt _ _ hF.le).trans ?_
  apply div_le_div_of_nonneg_left hnum.le (pow_pos hmin 2)
  exact pow_le_pow_left₀ hmin.le (le_max_right _ _) 2

end Gravity

/-! ## The scenarios of the specification, over the reals -/

section Scenarios

/-- Scenario A (sun at the origin with radius 60, spawn at `(200, 0)`), for every draw:
the system the accepted spawn leaves. -/
theorem scenarioA_eq (b2_pi radiusDraw signDraw1 signDraw2 : ℝ) :
    ∃ mass : ℝ,
      (SolarSystem.new.createSun b2_pi ⟨0, 0⟩ 60 : SolarSystem ℝ).spawnPlanetAt Real.sqrt b2_pi
          ⟨200, 0⟩ radiusDraw signDraw1 signDraw2
        = some
          { world := ⟨Function.update
                (SolarSystem.new.createSun b2_pi ⟨0, 0⟩ 60 : SolarSystem ℝ).world.bodies 2
                (some ⟨.b2_dynamicBody, ⟨200 * INV_PPM, 0 * INV_PPM⟩,
                  ⟨0, if signDraw2 < 1 / 2 then -Real.sqrt (3 * 10000 / (200 * INV_PPM))
                    else Real.sqrt (3 * 10000 / (200 * INV_PPM))⟩, mass, 0, ⟨0, 0⟩⟩), 3⟩,
            sun := some ⟨1, 60, ⟨0, 0⟩⟩,
            planets := [⟨2, radiusDraw, ⟨200, 0⟩, 200, ⟨0, 0⟩⟩] } := by
  obtain ⟨h1, h2, h3, h4, h5, h6, h7⟩ := createSun_spec b2_pi (SolarSystem.new : SolarSystem ℝ)
    ⟨0, 0⟩ 60 fresh_new (by decide)
  have hD : Real.sqrt ((200 - 0) * (200 - 0) + (0 - 0) * (0 - 0)) = (200 : ℝ) :=
    sqrt_unique Real.sqrt isSqrt_real _ _ (by norm_num) (by norm_num)
  have hd : ¬ Real.sqrt (((⟨200, 0⟩ : Vector2f ℝ).x - (⟨1, 60, ⟨0, 0⟩⟩ : Sun ℝ).shapePos.x)
      * ((⟨200, 0⟩ : Vector2f ℝ).x - (⟨1, 60, ⟨0, 0⟩⟩ : Sun ℝ).shapePos.x)
      + ((⟨200, 0⟩ : Vector2f ℝ).y - (⟨1, 60, ⟨0, 0⟩⟩ : Sun ℝ).shapePos.y)
      * ((⟨200, 0⟩ : Vector2f ℝ).y - (⟨1, 60, ⟨0, 0⟩⟩ : Sun ℝ).shapePos.y))
      < (⟨1, 60, ⟨0, 0⟩⟩ : Sun ℝ).radius_px + 5 := by
    simp only [hD]
    norm_num
  obtain ⟨v1, v2, mass, hv2, -, hspawn⟩ := spawnPlanetAt_eq Real.sqrt isSqrt_real b2_pi
    (SolarSystem.new.createSun b2_pi ⟨0, 0⟩ 60) ⟨1, 60, ⟨0, 0⟩⟩ _ ⟨200, 0⟩
    radiusDraw signDraw1 signDraw2 h1 h2 h3 rfl (by norm_num) hd
  have hlen : (b2Vec2.sub (⟨200 * INV_PPM, 0 * INV_PPM⟩ : b2Vec2 ℝ)
      ⟨0 * INV_PPM, 0 * INV_PPM⟩).Length Real.sqrt = 200 * INV_PPM := by
    have := length_scaled Real.sqrt isSqrt_real (⟨200, 0⟩ : Vector2f ℝ) ⟨0, 0⟩
    simp only [hD] at this
    exact this
  have hfar : 1 / 100 ≤ (b2Vec2.sub (⟨200 * INV_PPM, 0 * INV_PPM⟩ : b2Vec2 ℝ)
      ⟨0 * INV_PPM, 0 * INV_PPM⟩).Length Real.sqrt := by
    rw [hlen]; unfold INV_PPM PIXELS_PER_METER; norm_num
  have hv := (orbitalVelocity_far Real.sqrt isSqrt_real 3 10000 ⟨0 * INV_PPM, 0 * INV_PPM⟩
    ⟨200 * INV_PPM, 0 * INV_PPM⟩ signDraw2 hfar).symm.trans hv2
  have hv3 := (Option.some.inj hv).symm
  rw [hlen] at hv3
  have hI : (200 * INV_PPM : ℝ) ≠ 0 := by unfold INV_PPM PIXELS_PER_METER; norm_num
  have hv4 : v2 = ⟨0, if signDraw2 < 1 / 2 then -Real.sqrt (3 * 10000 / (200 * INV_PPM))
      else Real.sqrt (3 * 10000 / (200 * INV_PPM))⟩ := by
    rw [hv3]
    congr 1
    · simp
    · rw [sub_eq_self.mpr (zero_mul _), mul_one_div, div_self hI, mul_one]
  refine ⟨mass, ?_⟩
  rw [hspawn, hv4]
  simp only [h1, hD]
  rfl

/-- Scenario B (sun at the origin with radius 60, spawn at `(10, 0)`) and a spawn into a
system without a sun: both leave the system as it was. -/
theorem spawnPlanetAt_rejected_witness :
    (SolarSystem.new.createSun Real.pi ⟨0, 0⟩ 60 : SolarSystem ℝ).spawnPlanetAt Real.sqrt
        Real.pi ⟨10, 0⟩ 10 (1 / 4) (3 / 4)
      = some (SolarSystem.new.createSun Real.pi ⟨0, 0⟩ 60)
    ∧ (SolarSystem.new : SolarSystem ℝ).spawnPlanetAt Real.sqrt Real.pi ⟨200, 0⟩ 10 (1 / 4)
        (3 / 4) = some SolarSystem.new :=
  ⟨spawnPlanetAt_rejected Real.sqrt Real.pi _ ⟨10, 0⟩ 10 (1 / 4) (3 / 4)
    (Or.inr ⟨⟨1, 60, ⟨0, 0⟩⟩, rfl, by
      refine (sqrt_lt_iff Real.sqrt isSqrt_real _ _ ?_).mpr ?_ <;> norm_num⟩),
   spawnPlanetAt_rejected Real.sqrt Real.pi _ ⟨200, 0⟩ 10 (1 / 4) (3 / 4) (Or.inl rfl)⟩

/-- Scenario A, for every draw: one planet, on body 2, with velocity `(0, sigma)`. -/
theorem scenarioA_body (b2_pi radiusDraw signDraw1 signDraw2 : ℝ) :
    ∃ (s2 : SolarSystem ℝ) (pb : b2Body ℝ),
      (SolarSystem.new.createSun b2_pi ⟨0, 0⟩ 60 : SolarSystem ℝ).spawnPlanetAt Real.sqrt b2_pi
          ⟨200, 0⟩ radiusDraw signDraw1 signDraw2 = some s2
      ∧ s2.planets = [⟨2, radiusDraw, ⟨200, 0⟩, 200, ⟨0, 0⟩⟩]
      ∧ s2.world.bodies 2 = some pb
      ∧ pb.linearVelocity = ⟨0, if signDraw2 < 1 / 2 then -Real.sqrt 4500 else Real.sqrt 4500⟩
      := by
  obtain ⟨mass, h⟩ := scenarioA_eq b2_pi radiusDraw signDraw1 signDraw2
  have h45 : (3 * 10000 / (200 * INV_PPM) : ℝ) = 4500 := by
    unfold INV_PPM PIXELS_PER_METER; norm_num
  rw [h45] at h
  exact ⟨_, ⟨.b2_dynamicBody, ⟨200 * INV_PPM, 0 * INV_PPM⟩, ⟨0, if signDraw2 < 1 / 2 then
    -Real.sqrt 4500 else Real.sqrt 4500⟩, mass, 0, ⟨0, 0⟩⟩, h, rfl,
    by simp only [Function.update_same], rfl⟩

/-- C4, as the code has it: in scenario A (sun created at the origin with radius 60, the
`G = 3` and `M = 10000` of the member initialisers, spawn at `(200, 0)`) one planet is
created, whatever the draws, and the velocity on its body is `(0, sqrt(G*M/r))` or
`(0, -sqrt(G*M/r))` with `r = 200 * INV_PPM`, the distance from the sun in the units of
the physics backend. -/
theorem scenarioA_velocity (b2_pi radiusDraw signDraw1 signDraw2 : ℝ) :
    ∃ (s2 : SolarSystem ℝ) (p : Planet ℝ) (pb : b2Body ℝ),
      (SolarSystem.new.createSun b2_pi ⟨0, 0⟩ 60 : SolarSystem ℝ).spawnPlanetAt Real.sqrt b2_pi
          ⟨200, 0⟩ radiusDraw signDraw1 signDraw2 = some s2
      ∧ s2.planets = [p]
      ∧ s2.world.bodies p.body = some pb
      ∧ (pb.linearVelocity = ⟨0, Real.sqrt (3 * 10000 / (200 * INV_PPM))⟩
        ∨ pb.linearVelocity = ⟨0, -Real.sqrt (3 * 10000 / (200 * INV_PPM))⟩) := by
  obtain ⟨s2, pb, h1, h2, h3, h4⟩ := scenarioA_body b2_pi radiusDraw signDraw1 signDraw2
  have h45 : (3 * 10000 / (200 * INV_PPM) : ℝ) = 4500 := by
    unfold INV_PPM PIXELS_PER_METER; norm_num
  refine ⟨s2, _, pb, h1, h2, h3, ?_⟩
  rw [h45, h4]
  by_cases hs : signDraw2 < 1 / 2
  · right; simp only [hs, if_true]
  · left; simp only [hs, if_false]

/-- C4, as stated, fails: in scenario A with the sign draw `3/4` the velocity on the new
body has `y * y = 4500`; it is neither `(0, sqrt(G*M/200))` nor `(0, -sqrt(G*M/200))`. -/
theorem scenarioA_speed_is_not_sqrt_GM_over_200 :
    ∃ (s2 : SolarSystem ℝ) (pb : b2Body ℝ),
      (SolarSystem.new.createSun Real.pi ⟨0, 0⟩ 60 : SolarSystem ℝ).spawnPlanetAt Real.sqrt
          Real.pi ⟨200, 0⟩ 10 (1 / 4) (3 / 4) = some s2
      ∧ s2.world.bodies 2 = some pb
      ∧ pb.linearVelocity.y * pb.linearVelocity.y = 4500
      ∧ pb.linearVelocity ≠ ⟨0, Real.sqrt (3 * 10000 / 200)⟩
      ∧ pb.linearVelocity ≠ ⟨0, -Real.sqrt (3 * 10000 / 200)⟩ := by
  obtain ⟨s2, pb, h1, -, h3, h4⟩ := scenarioA_body Real.pi 10 (1 / 4) (3 / 4)
  have hsg : ¬ ((3 / 4 : ℝ) < 1 / 2) := by norm_num
  rw [if_neg hsg] at h4
  have hsq : Real.sqrt 4500 * Real.sqrt 4500 = 4500 := Real.mul_self_sqrt (by norm_num)
  have hsq2 : Real.sqrt (3 * 10000 / 200) * Real.sqrt (3 * 10000 / 200) = 3 * 10000 / 200 :=
    Real.mul_self_sqrt (by norm_num)
  refine ⟨s2, pb, h1, h3, ?_, ?_, ?_⟩
  · rw [h4]; exact hsq
  · rw [h4]
    intro hc
    have hy : Real.sqrt 4500 = Real.sqrt (3 * 10000 / 200) := congrArg b2Vec2.y hc
    rw [hy, hsq2] at hsq
    norm_num at hsq
  · rw [h4]
    intro hc
    have hy : Real.sqrt 4500 = -Real.sqrt (3 * 10000 / 200) := congrArg b2Vec2.y hc
    have h5 : Real.sqrt 4500 * Real.sqrt 4500
        = Real.sqrt (3 * 10000 / 200) * Real.sqrt (3 * 10000 / 200) := by
      rw [hy]; ring
    rw [hsq, hsq2] at h5
    norm_num at h5

/-- A spawn at `(90, 120)`, at display distance 150 from a sun of radius 60 at the origin:
one planet, with speed `sqrt(G*M/(150 * INV_PPM))` and velocity perpendicular to its
position. -/
theorem spawnPlanetAt_sets_orbital_velocity_witness :
    ∃ (s2 : SolarSystem ℝ) (p : Planet ℝ) (pb : b2Body ℝ),
      (SolarSystem.new.createSun Real.pi ⟨0, 0⟩ 60 : SolarSystem ℝ).spawnPlanetAt Real.sqrt
          Real.pi ⟨90, 120⟩ 10 (1 / 4) (3 / 4) = some s2
      ∧ s2.planets = [p]
      ∧ s2.world.bodies p.body = some pb
      ∧ Real.sqrt (pb.linearVelocity.x * pb.linearVelocity.x
            + pb.linearVelocity.y * pb.linearVelocity.y)
          = Real.sqrt (3 * 10000 / (150 * INV_PPM))
      ∧ pb.linearVelocity.x * (pb.position.x - 0 * INV_PPM)
          + pb.linearVelocity.y * (pb.position.y - 0 * INV_PPM) = 0 := by
  obtain ⟨h1, h2, h3, -⟩ := createSun_spec Real.pi (SolarSystem.new : SolarSystem ℝ)
    ⟨0, 0⟩ 60 fresh_new (by decide)
  have hD : Real.sqrt ((90 - 0) * (90 - 0) + (120 - 0) * (120 - 0)) = (150 : ℝ) :=
    sqrt_unique Real.sqrt isSqrt_real _ _ (by norm_num) (by norm_num)
  obtain ⟨s2, p, pb, e1, e2, e3, -, e5, e6, e7, -⟩ :=
    spawnPlanetAt_sets_orbital_velocity Real.sqrt isSqrt_real Real.pi
      (SolarSystem.new.createSun Real.pi ⟨0, 0⟩ 60) ⟨1, 60, ⟨0, 0⟩⟩
      ⟨.b2_staticBody, ⟨0 * INV_PPM, 0 * INV_PPM⟩, ⟨0, 0⟩, 0, 1, ⟨0, 0⟩⟩ ⟨90, 120⟩
      10 (1 / 4) (3 / 4) h1 h2 h3 rfl (by norm_num)
      (by simp only [hD]; norm_num)
      (by simp only [SolarSystem.createSun, SolarSystem.new]; norm_num)
  refine ⟨s2, p, pb, e1, e2, e3, ?_, e7⟩
  rw [e6, e5]
  simp only [hD]
  rfl

/-- A planet of mass 2 at 10 simulation units from a sun of radius 60 (2 units): the force
added is `3 * 10000 * 2 / 10^2 = 600` towards the sun. -/
theorem applyGravity_applies_inverse_square_force_witness :
    ∃ s2 : SolarSystem ℝ,
      SolarSystem.applyGravity Real.sqrt
          { world := ⟨fun h =>
                if h = 1 then some ⟨.b2_staticBody, ⟨0, 0⟩, ⟨0, 0⟩, 0, 1, ⟨0, 0⟩⟩
                else if h = 2 then some ⟨.b2_dynamicBody, ⟨10, 0⟩, ⟨0, 0⟩, 2, 0, ⟨0, 0⟩⟩
                else none, 3⟩,
            sun := some ⟨1, 60, ⟨0, 0⟩⟩,
            planets := [⟨2, 10, ⟨300, 0⟩, 300, ⟨0, 0⟩⟩] } (1 / 60) = some s2
      ∧ s2.world.bodies 2
          = some ⟨.b2_dynamicBody, ⟨10, 0⟩, ⟨0, 0⟩, 2, 0, ⟨-600, 0⟩⟩ := by
  have hD : Real.sqrt ((0 - 10) * (0 - 10) + (0 - 0) * (0 - 0)) = (10 : ℝ) :=
    sqrt_unique Real.sqrt isSqrt_real _ _ (by norm_num) (by norm_num)
  obtain ⟨s2, h1, -, h3⟩ := applyGravity_applies_inverse_square_force Real.sqrt isSqrt_real
    ({ world := ⟨fun h =>
          if h = 1 then some ⟨.b2_staticBody, ⟨0, 0⟩, ⟨0, 0⟩, 0, 1, ⟨0, 0⟩⟩
          else if h = 2 then some ⟨.b2_dynamicBody, ⟨10, 0⟩, ⟨0, 0⟩, 2, 0, ⟨0, 0⟩⟩
          else none, 3⟩,
       sun := some ⟨1, 60, ⟨0, 0⟩⟩,
       planets := [⟨2, 10, ⟨300, 0⟩, 300, ⟨0, 0⟩⟩] } : SolarSystem ℝ)
    ⟨1, 60, ⟨0, 0⟩⟩ ⟨.b2_staticBody, ⟨0, 0⟩, ⟨0, 0⟩, 0, 1, ⟨0, 0⟩⟩ (1 / 60) rfl rfl
    (by
      intro q hq _
      simp only [List.mem_singleton] at hq
      subst hq
      rfl)
    (by simp)
  obtain ⟨distance, F, dir, e1, e2, e3, e4, -⟩ := h3 ⟨2, 10, ⟨300, 0⟩, 300, ⟨0, 0⟩⟩
    (List.mem_singleton.mpr rfl) (by decide)
    ⟨.b2_dynamicBody, ⟨10, 0⟩, ⟨0, 0⟩, 2, 0, ⟨0, 0⟩⟩ rfl rfl
  refine ⟨s2, h1, ?_⟩
  rw [e4, e3, e2, e1]
  have heps : ¬ ((10 : ℝ) < b2_epsilon) := by unfold b2_epsilon; norm_num
  simp only [b2Vec2.Length, b2Vec2.Normalize, b2Vec2.sub, hD, heps, if_false, b2Vec2.smul,
    b2Vec2.add, INV_PPM, PIXELS_PER_METER]
  norm_num

/-- Five planets around a sun of radius 60, the second and the fourth overlapping each
other only: what the pass leaves is drawn from the other three. -/
theorem cleanupDead_removes_overlapping_pair_witness :
    (cleanupDead Real.sqrt (⟨1, 60, ⟨0, 0⟩⟩ : Sun ℝ)
        ([⟨2, 10, ⟨0, 200⟩, 200, ⟨0, 0⟩⟩] ++ ⟨3, 10, ⟨100, 0⟩, 100, ⟨0, 0⟩⟩
          :: ([⟨4, 12, ⟨0, -300⟩, 300, ⟨0, 0⟩⟩] ++ ⟨5, 10, ⟨115, 0⟩, 115, ⟨0, 0⟩⟩
            :: [⟨6, 8, ⟨-250, 0⟩, 250, ⟨0, 0⟩⟩]))).1.Sublist
      ([⟨2, 10, ⟨0, 200⟩, 200, ⟨0, 0⟩⟩]
        ++ ([⟨4, 12, ⟨0, -300⟩, 300, ⟨0, 0⟩⟩] ++ [⟨6, 8, ⟨-250, 0⟩, 250, ⟨0, 0⟩⟩])) :=
  (cleanupDead_removes_overlapping_pair Real.sqrt ⟨1, 60, ⟨0, 0⟩⟩
    ⟨3, 10, ⟨100, 0⟩, 100, ⟨0, 0⟩⟩ ⟨5, 10, ⟨115, 0⟩, 115, ⟨0, 0⟩⟩
    [⟨2, 10, ⟨0, 200⟩, 200, ⟨0, 0⟩⟩] [⟨4, 12, ⟨0, -300⟩, 300, ⟨0, 0⟩⟩]
    [⟨6, 8, ⟨-250, 0⟩, 250, ⟨0, 0⟩⟩]
    (by
      intro o ho
      simp only [List.mem_append, List.mem_cons, List.mem_singleton, List.not_mem_nil,
        or_false] at ho
      rcases ho with rfl | rfl | rfl | rfl | rfl <;> norm_num)
    (by norm_num [overlaps_iff Real.sqrt isSqrt_real])
    (by norm_num [hitsSun_iff Real.sqrt isSqrt_real])
    (by
      intro o ho
      simp only [List.mem_append, List.mem_cons, List.mem_singleton, List.not_mem_nil,
        or_false] at ho
      rcases ho with rfl | rfl | rfl <;> norm_num [overlaps_iff Real.sqrt isSqrt_real])).1

/-- A planet clear of the sun and of an overlapping pair before and after it is kept. -/
theorem cleanupDead_keeps_clear_planet_witness :
    ∃ r1 r2, (cleanupDead Real.sqrt (⟨1, 60, ⟨0, 0⟩⟩ : Sun ℝ)
        ([⟨2, 10, ⟨100, 0⟩, 100, ⟨0, 0⟩⟩] ++ ⟨3, 10, ⟨0, 200⟩, 200, ⟨0, 0⟩⟩
          :: [⟨4, 10, ⟨115, 0⟩, 115, ⟨0, 0⟩⟩])).1
        = r1 ++ ⟨3, 10, ⟨0, 200⟩, 200, ⟨0, 0⟩⟩ :: r2
      ∧ r1.Sublist [⟨2, 10, ⟨100, 0⟩, 100, ⟨0, 0⟩⟩]
      ∧ r2.Sublist [⟨4, 10, ⟨115, 0⟩, 115, ⟨0, 0⟩⟩] :=
  cleanupDead_keeps_clear_planet Real.sqrt ⟨1, 60, ⟨0, 0⟩⟩ ⟨3, 10, ⟨0, 200⟩, 200, ⟨0, 0⟩⟩
    [⟨2, 10, ⟨100, 0⟩, 100, ⟨0, 0⟩⟩] [⟨4, 10, ⟨115, 0⟩, 115, ⟨0, 0⟩⟩]
    (by
      intro o ho
      simp only [List.mem_append, List.mem_cons, List.mem_singleton, List.not_mem_nil,
        or_false] at ho
      rcases ho with rfl | rfl | rfl <;> norm_num)
    (by norm_num [hitsSun_iff Real.sqrt isSqrt_real])
    (by
      intro o ho
      simp only [List.mem_append, List.mem_cons, List.mem_singleton, List.not_mem_nil,
        or_false] at ho
      rcases ho with rfl | rfl <;> norm_num [overlaps_iff Real.sqrt isSqrt_real])

/-- C9 on the code: planets A, B, C in scan order, none passing the sun test, A passing
the pair test with B and not with C.  B, destroyed as the partner of A, is scanned again
with radius `-1`, passes the pair test with C (distance 6, radii `-1 + 10`), and C is
destroyed with it: nothing is left. -/
theorem cleanupDead_dead_partner_destroys_third :
    (∀ p ∈ ([⟨2, 10, ⟨100, 0⟩, 100, ⟨0, 0⟩⟩, ⟨3, 10, ⟨115, 0⟩, 115, ⟨0, 0⟩⟩,
        ⟨4, 10, ⟨121, 0⟩, 121, ⟨0, 0⟩⟩] : List (Planet ℝ)),
      ¬ hitsSun Real.sqrt ⟨1, 60, ⟨0, 0⟩⟩ p)
    ∧ overlaps Real.sqrt (⟨2, 10, ⟨100, 0⟩, 100, ⟨0, 0⟩⟩ : Planet ℝ)
        ⟨3, 10, ⟨115, 0⟩, 115, ⟨0, 0⟩⟩
    ∧ ¬ overlaps Real.sqrt (⟨2, 10, ⟨100, 0⟩, 100, ⟨0, 0⟩⟩ : Planet ℝ)
        ⟨4, 10, ⟨121, 0⟩, 121, ⟨0, 0⟩⟩
    ∧ (cleanupDead Real.sqrt (⟨1, 60, ⟨0, 0⟩⟩ : Sun ℝ)
        [⟨2, 10, ⟨100, 0⟩, 100, ⟨0, 0⟩⟩, ⟨3, 10, ⟨115, 0⟩, 115, ⟨0, 0⟩⟩,
          ⟨4, 10, ⟨121, 0⟩, 121, ⟨0, 0⟩⟩]).1 = [] := by
  refine ⟨?_, ?_, ?_, ?_⟩
  · intro p hp
    simp only [List.mem_cons, List.mem_singleton, List.not_mem_nil, or_false] at hp
    rcases hp with rfl | rfl | rfl <;> norm_num [hitsSun_iff Real.sqrt isSqrt_real]
  · norm_num [overlaps_iff Real.sqrt isSqrt_real]
  · norm_num [overlaps_iff Real.sqrt isSqrt_real]
  · norm_num [cleanupDead, cleanupLoop, pairScan, hitsSun_iff Real.sqrt isSqrt_real,
      overlaps_iff Real.sqrt isSqrt_real, Planet.markDead, radiusOk]

/-- C10 on the code: in the pass over A, B, C above `DestroyBody` is called on the body
of B twice (as the partner of A, then as the planet scanned against C); in a pass over two
planets where the partner lies within `sun.radius - 1` of the sun it is called on the
partner's body twice as well (as the partner, then by the sun test). -/
theorem cleanupDead_destroys_body_twice :
    (cleanupDead Real.sqrt (⟨1, 60, ⟨0, 0⟩⟩ : Sun ℝ)
        [⟨2, 10, ⟨100, 0⟩, 100, ⟨0, 0⟩⟩, ⟨3, 10, ⟨115, 0⟩, 115, ⟨0, 0⟩⟩,
          ⟨4, 10, ⟨121, 0⟩, 121, ⟨0, 0⟩⟩]).2 = [2, 3, 3, 4]
    ∧ (cleanupDead Real.sqrt (⟨1, 60, ⟨0, 0⟩⟩ : Sun ℝ)
        [⟨2, 10, ⟨70, 0⟩, 70, ⟨0, 0⟩⟩, ⟨3, 10, ⟨55, 0⟩, 55, ⟨0, 0⟩⟩]).2 = [2, 3, 3] := by
  constructor <;>
  norm_num [cleanupDead, cleanupLoop, pairScan, hitsSun_iff Real.sqrt isSqrt_real,
      overlaps_iff Real.sqrt isSqrt_real, Planet.markDead, radiusOk]

end Scenarios
